import Mathlib

/-!
# HD44780 character-LCD driver over I2C (`internal/lcddriver/HD44780Driver.go`)

A shallow embedding of the driver.  Bytes are natural numbers below 256 with the
8-bit wrap-around written out, durations are nanoseconds as in Go's `time`
package, and every method is a function from the machine state (the driver
object together with the log of everything done to the outside world) to the
outcome of the call and the new state.
-/

namespace lcddriver

/-! ## Outside world -/

/-- Go `error` values that can reach a caller of the driver: an error raised by
the bus transport, or one built by `fmt.Errorf`. -/
inductive GoError where
  | transport (code : Nat)
  | errorf (msg : String)
  deriving DecidableEq, Repr

/-- Things the driver does to the outside world, in the order it does them. -/
inductive Event where
  | getConnection (address bus : Int)
  | writeByte (b : Nat)
  | sleep (d : Nat)
  deriving DecidableEq, Repr

/-- How a call ends: it returns an `error` (possibly `nil`), or the Go runtime
panics (method call on a nil connection, index out of range). -/
inductive Outcome where
  | returns (err : Option GoError)
  | panics
  deriving DecidableEq, Repr

/-- An `i2c.Connection`: `outcome n` is what the bus answers to write attempt
number `n` (counted from 0 over the whole log). -/
structure Connection where
  outcome : Nat → Option GoError

/-- An `i2c.Connector`: its default bus and what `GetConnection` hands back. -/
structure Connector where
  GetDefaultBus : Int
  GetConnection : Int → Int → Option Connection × Option GoError

/-- Modelled from the spec: the embedded `i2c.Config` of the gobot library, a bus
index override and a device address override, each absent unless an option set it. -/
structure Config where
  bus : Option Int
  address : Option Int

/-- Modelled from the spec: `i2c.NewConfig()`, no override set. -/
def NewConfig : Config := { bus := none, address := none }

/-- Modelled from the spec: the configured bus, or the given default. -/
def Config.GetBusOrDefault (c : Config) (d : Int) : Int := c.bus.getD d

/-- Modelled from the spec: the configured address, or the given default. -/
def Config.GetAddressOrDefault (c : Config) (d : Int) : Int := c.address.getD d

/-- Modelled from the spec: the option `i2c.WithAddress`. -/
def WithAddress (address : Int) (c : Config) : Config := { c with address := some address }

/-- Modelled from the spec: the option `i2c.WithBus`. -/
def WithBus (bus : Int) (c : Config) : Config := { c with bus := some bus }

/-- The struct `HD44780Driver`; `connection` is `none` for Go's nil interface. -/
structure HD44780Driver where
  name : String
  connector : Connector
  connection : Option Connection
  config : Config

/-- The machine state: the driver object and the log of the outside world. -/
structure State where
  driver : HD44780Driver
  events : List Event

/-- The bytes of the bus write attempts in a log, in order. -/
def busWrites : List Event → List Nat
  | [] => []
  | Event.writeByte b :: es => b :: busWrites es
  | _ :: es => busWrites es

/-- The waits in a log, in order. -/
def sleeps : List Event → List Nat
  | [] => []
  | Event.sleep d :: es => d :: sleeps es
  | _ :: es => sleeps es

/-- Go's `time.Sleep`. -/
def Sleep (d : Nat) (s : State) : State :=
  { s with events := s.events ++ [Event.sleep d] }

/-- The call `connection.WriteByte(b)`: the attempt is logged and the bus answers. -/
def Connection.WriteByte (c : Connection) (b : Nat) (s : State) : Outcome × State :=
  (Outcome.returns (c.outcome (busWrites s.events).length),
   { s with events := s.events ++ [Event.writeByte b] })

/-- Go's `if err := f(); err != nil { return err }` followed by the rest of the body. -/
def orReturn (r : Outcome × State) (rest : State → Outcome × State) : Outcome × State :=
  match r with
  | (Outcome.returns none, s) => rest s
  | (o, s) => (o, s)

/-! ## Constants -/

def Microsecond : Nat := 1000
def Millisecond : Nat := 1000 * Microsecond

def defaultName : String := "HD44780"
def command2LineLcd : Nat := 0x08
def enable : Nat := 0b00000100
def lcdStartTime : Nat := 1000 * Millisecond
def time4BitMode : Nat := 4500 * Millisecond
def Retries4BitMode : Nat := 3
def commandHome : Nat := 0x02
def homeCommandDuration : Nat := 2000 * Microsecond
def setAddressCommand : Nat := 0x80
def enablePulseTime : Nat := 1 * Microsecond
def commandSettleTime : Nat := 50 * Microsecond
def commandClearDisplay : Nat := 0x01
def clearTime : Nat := 2000 * Microsecond

/-! ## Pure helpers -/

/-- Go's conversion `byte(c)` of a rune: the low 8 bits. -/
def byte (c : Int) : Nat := (c % 256).toNat

def lowNibble (value : Nat) : Nat := ((value <<< 4) % 256) &&& 0xf0

def highNibble (value : Nat) : Nat := value &&& 0xf0

/-- The byte `command & ^enable`; `^enable` is the 8-bit complement of `enable`. -/
def withoutEnable (command : Nat) : Nat := command &&& (255 - enable)

def withEnable (command : Nat) : Nat := command ||| enable

def rowOffsets : List Nat := [0x00, 0x40]

def validRow (r : Nat) : Bool := !(decide (r > 1) || decide (r < 0))

def validColumn (c : Nat) : Bool := !(decide (c > 15) || decide (c < 0))

/-! ## Methods -/

/-- The constructor; `name` stands for the value of `gobot.DefaultName(defaultName)`. -/
def NewHD44780Driver (name : String) (a : Connector) (options : List (Config → Config)) :
    HD44780Driver :=
  { name := name, connector := a, connection := none,
    config := options.foldl (fun c option => option c) NewConfig }

def send4BitCommand (command : Nat) (s : State) : Outcome × State :=
  match s.driver.connection with
  | none => (Outcome.panics, s)
  | some connection =>
    orReturn (connection.WriteByte (withEnable command) s) fun s =>
    orReturn (connection.WriteByte (withoutEnable command) (Sleep enablePulseTime s)) fun s =>
    (Outcome.returns none, Sleep commandSettleTime s)

def sendCommand (command : Nat) (s : State) : Outcome × State :=
  orReturn (send4BitCommand (highNibble command) s) fun s =>
  orReturn (send4BitCommand (lowNibble command) s) fun s =>
  (Outcome.returns none, s)

def sendData (data : Nat) (s : State) : Outcome × State :=
  orReturn (send4BitCommand (highNibble data ||| 1) s) fun s =>
  orReturn (send4BitCommand (lowNibble data ||| 1) s) fun s =>
  (Outcome.returns none, s)

def Clear (s : State) : Outcome × State :=
  orReturn (sendCommand commandClearDisplay s) fun s =>
  (Outcome.returns none, Sleep clearTime s)

def Home (s : State) : Outcome × State :=
  orReturn (sendCommand commandHome s) fun s =>
  (Outcome.returns none, Sleep homeCommandDuration s)

def Write (c : Int) (s : State) : Outcome × State :=
  sendData (byte c) s

/-- The loop `for _, c := range s` of `WriteString`, over the runes still to come. -/
def WriteString.range : List Char → State → Outcome × State
  | [], s => (Outcome.returns none, s)
  | c :: cs, s => orReturn (Write (Int.ofNat c.toNat) s) fun s => WriteString.range cs s

def WriteString (str : String) (s : State) : Outcome × State :=
  WriteString.range str.data s

def SetCursor (row col : Nat) (s : State) : Outcome × State :=
  if !validColumn col then
    (Outcome.returns (some (GoError.errorf ("invalid col coordinate: " ++ toString col))), s)
  else if !validRow row then
    (Outcome.returns (some (GoError.errorf ("invalid row coordinate: " ++ toString row))), s)
  else
    match rowOffsets[row]? with
    | none => (Outcome.panics, s)
    | some offset => sendCommand (((setAddressCommand ||| col) + offset) % 256) s

def enableDisplay (s : State) : Outcome × State :=
  let displayControl : Nat := 0x08
  let displayOn : Nat := 0x04
  orReturn (sendCommand (displayControl ||| displayOn) s) fun s =>
  (Outcome.returns none, s)

def setupConnection (s : State) : Outcome × State :=
  let h := s.driver
  let bus := h.config.GetBusOrDefault h.connector.GetDefaultBus
  let address := h.config.GetAddressOrDefault 0
  let r := h.connector.GetConnection address bus
  (Outcome.returns r.2,
   { driver := { h with connection := r.1 },
     events := s.events ++ [Event.getConnection address bus] })

def setLcdFunction (s : State) : Outcome × State :=
  let commandLcdFunctionSet : Nat := 0x20
  let value := commandLcdFunctionSet ||| command2LineLcd
  sendCommand value s

/-- The loop of `set4BitMode` with `n` iterations left to run. -/
def set4BitMode.loop : Nat → State → Outcome × State
  | 0, s => (Outcome.returns none, s)
  | n + 1, s =>
    let command4BitMode : Nat := (0x03 <<< 4) % 256
    orReturn (send4BitCommand command4BitMode s) fun s =>
    set4BitMode.loop n (Sleep time4BitMode s)

def set4BitMode (s : State) : Outcome × State :=
  orReturn (set4BitMode.loop Retries4BitMode s) fun s =>
  send4BitCommand ((0x02 <<< 4) % 256) s

def Start (s : State) : Outcome × State :=
  orReturn (setupConnection s) fun s =>
  orReturn (set4BitMode (Sleep lcdStartTime s)) fun s =>
  orReturn (setLcdFunction s) fun s =>
  orReturn (enableDisplay s) fun s =>
  orReturn (Clear s) fun s =>
  orReturn (Home s) fun s =>
  (Outcome.returns none, s)

def Halt (s : State) : Outcome × State := (Outcome.returns none, s)

/-! ## Test fixtures -/

/-- A bus on which every write succeeds. -/
def okConnection : Connection := { outcome := fun _ => none }

/-- A bus on which write attempt number `k` fails with `e` and every other succeeds. -/
def failingConnection (k : Nat) (e : GoError) : Connection :=
  { outcome := fun n => if n = k then some e else none }

/-- A connector (default bus 1) that hands out the given connection. -/
def okConnector (c : Connection) : Connector :=
  { GetDefaultBus := 1, GetConnection := fun _ _ => (some c, none) }

/-- A started driver on the given connection, with an empty log. -/
def ready (c : Connection) : State :=
  { driver := { NewHD44780Driver "HD44780" (okConnector c) [WithAddress 0x27] with
                connection := some c },
    events := [] }

/-- A freshly constructed driver, as in `cmd/blink/main.go`, with an empty log. -/
def fresh (c : Connection) : State :=
  { driver := NewHD44780Driver "HD44780" (okConnector c) [WithAddress 0x27], events := [] }

/-! ## Operations as data -/

/-- The operations of the driver that consist of at most two raw frames. -/
inductive Operation where
  | send4BitCommand (command : Nat)
  | sendCommand (command : Nat)
  | sendData (data : Nat)
  | Clear
  | Home
  | SetCursor (row col : Nat)
  | Write (c : Int)

/-- Running an operation is calling the method of that name. -/
def Operation.run : Operation → State → Outcome × State
  | Operation.send4BitCommand command => lcddriver.send4BitCommand command
  | Operation.sendCommand command => lcddriver.sendCommand command
  | Operation.sendData data => lcddriver.sendData data
  | Operation.Clear => lcddriver.Clear
  | Operation.Home => lcddriver.Home
  | Operation.SetCursor row col => lcddriver.SetCursor row col
  | Operation.Write c => lcddriver.Write c

/-- The success trace of an operation: the bytes it writes on a started driver whose
bus writes all succeed, starting from an empty log. -/
def Operation.successTrace (op : Operation) : List Nat :=
  busWrites (op.run (ready okConnection)).2.events

/-- The log of `Write c` alone on a started driver whose bus writes all succeed. -/
def writeTrace (c : Int) : List Event :=
  (Write c (ready okConnection)).2.events

/-! ## Public operations as data -/

/-- The exported methods of the driver that act on the display or the bus. -/
inductive PublicOperation where
  | Start
  | Clear
  | Home
  | SetCursor (row col : Nat)
  | Write (c : Int)
  | WriteString (str : String)
  | Halt
  deriving DecidableEq

/-- Running a public operation is calling the method of that name. -/
def PublicOperation.run : PublicOperation → State → Outcome × State
  | PublicOperation.Start => lcddriver.Start
  | PublicOperation.Clear => lcddriver.Clear
  | PublicOperation.Home => lcddriver.Home
  | PublicOperation.SetCursor row col => lcddriver.SetCursor row col
  | PublicOperation.Write c => lcddriver.Write c
  | PublicOperation.WriteString str => lcddriver.WriteString str
  | PublicOperation.Halt => lcddriver.Halt

/-- The display operations: every public operation but `Start` and `Halt`. -/
def PublicOperation.isDisplay : PublicOperation → Bool
  | PublicOperation.Start => false
  | PublicOperation.Halt => false
  | _ => true

/-- The operations that send data (RS bit set) rather than commands. -/
def PublicOperation.isData : PublicOperation → Bool
  | PublicOperation.Write _ => true
  | PublicOperation.WriteString _ => true
  | _ => false

/-! ## The enable-pulse discipline, as an automaton over the log -/

/-- Where a log stands within an enable pulse. -/
inductive FrameState where
  | idle
  | asserted (b : Nat)
  | pulsed (b : Nat)
  | cleared
  deriving DecidableEq, Repr

/-- One event of the log: a bus write is allowed only as the enable-asserted write
of a new pulse (enable bit set) or, right after the 1 µs pulse delay, as the same
byte with the enable bit cleared, which must be followed at once by the 50 µs
settle delay; other events are allowed only between pulses. -/
def frameStep : FrameState → Event → Option FrameState
  | FrameState.idle, Event.writeByte b =>
    if b &&& enable = enable then some (FrameState.asserted b) else none
  | FrameState.idle, _ => some FrameState.idle
  | FrameState.asserted b, Event.sleep d =>
    if d = enablePulseTime then some (FrameState.pulsed b) else none
  | FrameState.asserted _, _ => none
  | FrameState.pulsed b, Event.writeByte b2 =>
    if b2 = b &&& (255 - enable) then some FrameState.cleared else none
  | FrameState.pulsed _, _ => none
  | FrameState.cleared, Event.sleep d =>
    if d = commandSettleTime then some FrameState.idle else none
  | FrameState.cleared, _ => none

/-- The automaton run over a log. -/
def runFrames : FrameState → List Event → Option FrameState
  | st, [] => some st
  | st, e :: es =>
    match frameStep st e with
    | some st2 => runFrames st2 es
    | none => none

/-- A log in which every bus write belongs to a complete enable pulse. -/
def framed (es : List Event) : Bool :=
  decide (runFrames FrameState.idle es = some FrameState.idle)

/-- The control bits of a bus byte: bits 1 and 3 clear, bit 0 (RS) equal to `rs`. -/
@[reducible] def controlBits (rs : Nat) (x : Nat) : Prop :=
  x &&& 0xF5 = x ∧ x &&& 0x02 = 0 ∧ x &&& 0x08 = 0 ∧ x &&& 0x01 = rs

/-! ## Properties carried through the methods -/

/-- A property `Q s r` of a starting state and the result of a call that holds when
nothing happens, when the call sleeps, and for one raw frame of an admissible value,
and that composes along a nil return. -/
structure FrameInvariant (V : Nat → Prop) (Q : State → Outcome × State → Prop) : Prop where
  stay : ∀ o s, Q s (o, s)
  sleep : ∀ d s, Q s (Outcome.returns none, Sleep d s)
  trans : ∀ s s1 r, Q s (Outcome.returns none, s1) → Q s1 r → Q s r
  frame : ∀ v s, V v → Q s (send4BitCommand v s)

/-- The method `f` writes the bytes `tr` when every write succeeds, and when write
number `k` (from 0) is the first to fail it returns that error having attempted
exactly the first `k + 1` bytes of `tr`; the driver object is left as it was. -/
def Traced (f : State → Outcome × State) (tr : List Nat) : Prop :=
  ∀ (d : HD44780Driver) (ev : List Event) (c : Connection), d.connection = some c →
    ((∀ i, i < tr.length → c.outcome ((busWrites ev).length + i) = none) →
      (f ⟨d, ev⟩).1 = Outcome.returns none ∧ (f ⟨d, ev⟩).2.driver = d ∧
      busWrites (f ⟨d, ev⟩).2.events = busWrites ev ++ tr) ∧
    (∀ k e, k < tr.length →
      (∀ i, i < k → c.outcome ((busWrites ev).length + i) = none) →
      c.outcome ((busWrites ev).length + k) = some e →
      (f ⟨d, ev⟩).1 = Outcome.returns (some e) ∧ (f ⟨d, ev⟩).2.driver = d ∧
      busWrites (f ⟨d, ev⟩).2.events = busWrites ev ++ tr.take (k + 1))

/-! ## Lemmas shared by the proofs -/

theorem busWrites_append (a b : List Event) : busWrites (a ++ b) = busWrites a ++ busWrites b := by
  induction a with
  | nil => rfl
  | cons e es ih => cases e <;> simp [busWrites, ih]

@[simp] theorem orReturn_nil (s : State) (rest : State → Outcome × State) :
    orReturn (Outcome.returns none, s) rest = rest s := rfl

@[simp] theorem orReturn_err (e : GoError) (s : State) (rest : State → Outcome × State) :
    orReturn (Outcome.returns (some e), s) rest = (Outcome.returns (some e), s) := rfl

@[simp] theorem orReturn_panics (s : State) (rest : State → Outcome × State) :
    orReturn (Outcome.panics, s) rest = (Outcome.panics, s) := rfl

/-- What `send4BitCommand` does on a connected driver, for every behaviour of the bus. -/
theorem send4BitCommand_cases (v : Nat) (s : State) (c : Connection)
    (hc : s.driver.connection = some c) :
    send4BitCommand v s =
      match c.outcome (busWrites s.events).length with
      | some e =>
        (Outcome.returns (some e),
         { s with events := s.events ++ [Event.writeByte (withEnable v)] })
      | none =>
        match c.outcome ((busWrites s.events).length + 1) with
        | some e =>
          (Outcome.returns (some e),
           { s with events := s.events ++ [Event.writeByte (withEnable v),
               Event.sleep enablePulseTime, Event.writeByte (withoutEnable v)] })
        | none =>
          (Outcome.returns none,
           { s with events := s.events ++ [Event.writeByte (withEnable v),
               Event.sleep enablePulseTime, Event.writeByte (withoutEnable v),
               Event.sleep commandSettleTime] }) := by
  unfold send4BitCommand
  rw [hc]
  simp only [Connection.WriteByte, Sleep]
  cases h0 : c.outcome (busWrites s.events).length with
  | some e => simp
  | none =>
    simp only [orReturn_nil, busWrites_append, busWrites, List.length_append, List.length_cons,
      List.length_nil, List.append_nil, Nat.add_zero, Nat.zero_add]
    cases h1 : c.outcome ((busWrites s.events).length + 1) with
    | some e => simp
    | none => simp

/-- On a bus whose writes all succeed, `send4BitCommand` is one enable pulse. -/
theorem send4BitCommand_ok (v : Nat) (d : HD44780Driver) (ev : List Event) (c : Connection)
    (hc : d.connection = some c) (hok : ∀ n, c.outcome n = none) :
    send4BitCommand v ⟨d, ev⟩ =
      (Outcome.returns none,
       ⟨d, ev ++ [Event.writeByte (withEnable v), Event.sleep enablePulseTime,
           Event.writeByte (withoutEnable v), Event.sleep commandSettleTime]⟩) := by
  rw [send4BitCommand_cases v ⟨d, ev⟩ c hc]
  simp [hok]

set_option maxRecDepth 1000000 in
theorem byte_facts : ∀ b, b < 256 →
    withoutEnable (highNibble b) = b &&& 0xF0 ∧
    withoutEnable (lowNibble b) = ((b <<< 4) % 256) &&& 0xF0 ∧
    withEnable (highNibble b ||| 1) = (b &&& 0xF0) ||| 0x05 ∧
    withoutEnable (highNibble b ||| 1) = (b &&& 0xF0) ||| 0x01 ∧
    withEnable (lowNibble b ||| 1) = (((b <<< 4) % 256) &&& 0xF0) ||| 0x05 ∧
    withoutEnable (lowNibble b ||| 1) = (((b <<< 4) % 256) &&& 0xF0) ||| 0x01 := by
  decide

set_option maxRecDepth 1000000 in
theorem rs_facts : ∀ b, b < 256 →
    ((b &&& 0xF0) ||| 0x04) ||| 0x01 = (b &&& 0xF0) ||| 0x05 ∧
    ((((b <<< 4) % 256) &&& 0xF0) ||| 0x04) ||| 0x01 = (((b <<< 4) % 256) &&& 0xF0) ||| 0x05 ∧
    ((b &&& 0xF0) ||| 0x04) &&& 0x01 = 0 ∧
    (b &&& 0xF0) &&& 0x01 = 0 ∧
    ((((b <<< 4) % 256) &&& 0xF0) ||| 0x04) &&& 0x01 = 0 ∧
    (((b <<< 4) % 256) &&& 0xF0) &&& 0x01 = 0 := by
  decide

/-- Two raw frames in a row on a bus whose writes all succeed. -/
theorem twoFrames_ok (x y : Nat) (d : HD44780Driver) (ev : List Event) (c : Connection)
    (hc : d.connection = some c) (hok : ∀ n, c.outcome n = none) :
    (orReturn (send4BitCommand x ⟨d, ev⟩) fun s =>
      orReturn (send4BitCommand y s) fun s => (Outcome.returns none, s)) =
      (Outcome.returns none,
       ⟨d, ev ++ [Event.writeByte (withEnable x), Event.sleep enablePulseTime,
           Event.writeByte (withoutEnable x), Event.sleep commandSettleTime,
           Event.writeByte (withEnable y), Event.sleep enablePulseTime,
           Event.writeByte (withoutEnable y), Event.sleep commandSettleTime]⟩) := by
  rw [send4BitCommand_ok x d ev c hc hok]
  simp only [orReturn_nil]
  rw [send4BitCommand_ok y d _ c hc hok]
  simp

theorem sendCommand_ok (b : Nat) (d : HD44780Driver) (ev : List Event) (c : Connection)
    (hc : d.connection = some c) (hok : ∀ n, c.outcome n = none) :
    sendCommand b ⟨d, ev⟩ =
      (Outcome.returns none,
       ⟨d, ev ++ [Event.writeByte (withEnable (highNibble b)), Event.sleep enablePulseTime,
           Event.writeByte (withoutEnable (highNibble b)), Event.sleep commandSettleTime,
           Event.writeByte (withEnable (lowNibble b)), Event.sleep enablePulseTime,
           Event.writeByte (withoutEnable (lowNibble b)), Event.sleep commandSettleTime]⟩) :=
  twoFrames_ok (highNibble b) (lowNibble b) d ev c hc hok

theorem sendData_ok (b : Nat) (d : HD44780Driver) (ev : List Event) (c : Connection)
    (hc : d.connection = some c) (hok : ∀ n, c.outcome n = none) :
    sendData b ⟨d, ev⟩ =
      (Outcome.returns none,
       ⟨d, ev ++ [Event.writeByte (withEnable (highNibble b ||| 1)), Event.sleep enablePulseTime,
           Event.writeByte (withoutEnable (highNibble b ||| 1)), Event.sleep commandSettleTime,
           Event.writeByte (withEnable (lowNibble b ||| 1)), Event.sleep enablePulseTime,
           Event.writeByte (withoutEnable (lowNibble b ||| 1)), Event.sleep commandSettleTime]⟩) :=
  twoFrames_ok (highNibble b ||| 1) (lowNibble b ||| 1) d ev c hc hok

theorem Clear_ok (d : HD44780Driver) (ev : List Event) (c : Connection)
    (hc : d.connection = some c) (hok : ∀ n, c.outcome n = none) :
    Clear ⟨d, ev⟩ =
      (Outcome.returns none,
       ⟨d, ev ++ [Event.writeByte 0x04, Event.sleep enablePulseTime,
           Event.writeByte 0x00, Event.sleep commandSettleTime,
           Event.writeByte 0x14, Event.sleep enablePulseTime,
           Event.writeByte 0x10, Event.sleep commandSettleTime, Event.sleep clearTime]⟩) := by
  unfold Clear
  rw [sendCommand_ok commandClearDisplay d ev c hc hok]
  simp only [orReturn_nil, Sleep, List.append_assoc, List.cons_append, List.nil_append]
  rfl

theorem Home_ok (d : HD44780Driver) (ev : List Event) (c : Connection)
    (hc : d.connection = some c) (hok : ∀ n, c.outcome n = none) :
    Home ⟨d, ev⟩ =
      (Outcome.returns none,
       ⟨d, ev ++ [Event.writeByte 0x04, Event.sleep enablePulseTime,
           Event.writeByte 0x00, Event.sleep commandSettleTime,
           Event.writeByte 0x24, Event.sleep enablePulseTime,
           Event.writeByte 0x20, Event.sleep commandSettleTime,
           Event.sleep homeCommandDuration]⟩) := by
  unfold Home
  rw [sendCommand_ok commandHome d ev c hc hok]
  simp only [orReturn_nil, Sleep, List.append_assoc, List.cons_append, List.nil_append]
  rfl

theorem set4BitMode_ok (d : HD44780Driver) (ev : List Event) (c : Connection)
    (hc : d.connection = some c) (hok : ∀ n, c.outcome n = none) :
    set4BitMode ⟨d, ev⟩ =
      (Outcome.returns none,
       ⟨d, ev ++ [Event.writeByte 0x34, Event.sleep enablePulseTime,
           Event.writeByte 0x30, Event.sleep commandSettleTime, Event.sleep time4BitMode,
           Event.writeByte 0x34, Event.sleep enablePulseTime,
           Event.writeByte 0x30, Event.sleep commandSettleTime, Event.sleep time4BitMode,
           Event.writeByte 0x34, Event.sleep enablePulseTime,
           Event.writeByte 0x30, Event.sleep commandSettleTime, Event.sleep time4BitMode,
           Event.writeByte 0x24, Event.sleep enablePulseTime,
           Event.writeByte 0x20, Event.sleep commandSettleTime]⟩) := by
  have frame := fun v ev => send4BitCommand_ok v d ev c hc hok
  simp only [set4BitMode, Retries4BitMode, set4BitMode.loop, frame, orReturn_nil, Sleep,
    List.append_assoc, List.cons_append, List.nil_append]
  rfl

/-- The log after `sendCommand b` on a bus whose writes all succeed, bytes written out. -/
theorem sendCommand_bytes (b : Nat) (hb : b < 256) (d : HD44780Driver) (ev : List Event)
    (c : Connection) (hc : d.connection = some c) (hok : ∀ n, c.outcome n = none) :
    sendCommand b ⟨d, ev⟩ =
      (Outcome.returns none,
       ⟨d, ev ++ [
           Event.writeByte ((b &&& 0xF0) ||| 0x04), Event.sleep (1 * Microsecond),
           Event.writeByte (b &&& 0xF0), Event.sleep (50 * Microsecond),
           Event.writeByte ((((b <<< 4) % 256) &&& 0xF0) ||| 0x04), Event.sleep (1 * Microsecond),
           Event.writeByte (((b <<< 4) % 256) &&& 0xF0), Event.sleep (50 * Microsecond)]⟩) := by
  obtain ⟨h1, h2, -⟩ := byte_facts b hb
  have e1 : withEnable (highNibble b) = (b &&& 0xF0) ||| 0x04 := rfl
  have e2 : withEnable (lowNibble b) = (((b <<< 4) % 256) &&& 0xF0) ||| 0x04 := rfl
  have key := sendCommand_ok b d ev c hc hok
  rw [h1, h2, e1, e2] at key
  exact key

/-! ## Framing of commands and data -/

/-- C1: for every byte `b`, on a connected driver whose bus writes all succeed,
`sendCommand b` returns nil and appends to the log exactly two raw frames, the high
nibble `b & 0xF0` first and the low nibble `(b << 4) & 0xF0` second, each as an
enable-asserted write, the 1 µs pulse, the enable-cleared write and the 50 µs settle
delay; the bytes attempted on the bus are, in order, `(b & 0xF0) | 0x04`, `b & 0xF0`,
`((b << 4) & 0xF0) | 0x04`, `(b << 4) & 0xF0`. -/
theorem C1_sendCommand_frames (b : Nat) (hb : b < 256) (s : State) (c : Connection)
    (hc : s.driver.connection = some c) (hok : ∀ n, c.outcome n = none) :
    sendCommand b s =
      (Outcome.returns none,
       { s with events := s.events ++ [
           Event.writeByte ((b &&& 0xF0) ||| 0x04), Event.sleep (1 * Microsecond),
           Event.writeByte (b &&& 0xF0), Event.sleep (50 * Microsecond),
           Event.writeByte ((((b <<< 4) % 256) &&& 0xF0) ||| 0x04), Event.sleep (1 * Microsecond),
           Event.writeByte (((b <<< 4) % 256) &&& 0xF0), Event.sleep (50 * Microsecond)] }) ∧
    busWrites (sendCommand b s).2.events =
      busWrites s.events ++ [(b &&& 0xF0) ||| 0x04, b &&& 0xF0,
        (((b <<< 4) % 256) &&& 0xF0) ||| 0x04, ((b <<< 4) % 256) &&& 0xF0] := by
  obtain ⟨d, ev⟩ := s
  have key := sendCommand_bytes b hb d ev c hc hok
  refine ⟨key, ?_⟩
  rw [key]
  simp [busWrites_append, busWrites]

theorem C1_sendCommand_frames_witness :
    (0x28 < 256 ∧ (ready okConnection).driver.connection = some okConnection ∧
      ∀ n, okConnection.outcome n = none) ∧
    busWrites (sendCommand 0x28 (ready okConnection)).2.events = [0x24, 0x20, 0x84, 0x80] :=
  ⟨⟨by decide, rfl, fun _ => rfl⟩,
   (C1_sendCommand_frames 0x28 (by decide) (ready okConnection) okConnection rfl
      (fun _ => rfl)).2⟩

/-- C2: for every byte `b`, on a connected driver whose bus writes all succeed,
`sendData b` returns nil and attempts exactly four bus writes, `(b & 0xF0) | 0x05`,
`(b & 0xF0) | 0x01`, `((b << 4) & 0xF0) | 0x05`, `((b << 4) & 0xF0) | 0x01`; these are
the four bytes `sendCommand b` writes from the same state, each ORed with the RS bit
`0x01`, and no byte written by `sendCommand b` has bit 0 set. -/
theorem C2_sendData_frames (b : Nat) (hb : b < 256) (s : State) (c : Connection)
    (hc : s.driver.connection = some c) (hok : ∀ n, c.outcome n = none) :
    (sendData b s).1 = Outcome.returns none ∧
    busWrites (sendData b s).2.events =
      busWrites s.events ++ [(b &&& 0xF0) ||| 0x05, (b &&& 0xF0) ||| 0x01,
        (((b <<< 4) % 256) &&& 0xF0) ||| 0x05, (((b <<< 4) % 256) &&& 0xF0) ||| 0x01] ∧
    (busWrites (sendData b s).2.events).drop (busWrites s.events).length =
      ((busWrites (sendCommand b s).2.events).drop (busWrites s.events).length).map
        (fun x => x ||| 0x01) ∧
    ∀ x ∈ (busWrites (sendCommand b s).2.events).drop (busWrites s.events).length,
      x &&& 0x01 = 0 := by
  obtain ⟨-, -, h3, h4, h5, h6⟩ := byte_facts b hb
  obtain ⟨r1, r2, r3, r4, r5, r6⟩ := rs_facts b hb
  obtain ⟨d, ev⟩ := s
  have key := sendData_ok b d ev c hc hok
  rw [h3, h4, h5, h6] at key
  rw [sendCommand_bytes b hb d ev c hc hok, key]
  simp only [busWrites_append, busWrites, List.drop_left, List.map_cons, List.map_nil,
    List.mem_cons, List.mem_singleton, List.not_mem_nil, or_false]
  refine ⟨trivial, trivial, ?_, ?_⟩
  · rw [r1, r2]
  · rintro x (rfl | rfl | rfl | rfl) <;> assumption

theorem C2_sendData_frames_witness :
    (0x41 < 256 ∧ (ready okConnection).driver.connection = some okConnection ∧
      ∀ n, okConnection.outcome n = none) ∧
    busWrites (sendData 0x41 (ready okConnection)).2.events = [0x45, 0x41, 0x15, 0x11] :=
  ⟨⟨by decide, rfl, fun _ => rfl⟩,
   (C2_sendData_frames 0x41 (by decide) (ready okConnection) okConnection rfl
      (fun _ => rfl)).2.1⟩

/-! ## Cursor addressing -/

set_option maxRecDepth 1000000 in
theorem address_facts : ∀ col, col < 16 →
    ((setAddressCommand ||| col) + 0x00) % 256 = 0x80 ||| col ∧
    ((setAddressCommand ||| col) + 0x40) % 256 = 0x80 ||| ((0x40 + col) % 256) ∧
    ((setAddressCommand ||| col) + 0x00) % 256 = 0x80 ||| ((col + 0x00) % 256) ∧
    ((setAddressCommand ||| col) + 0x40) % 256 = 0x80 ||| ((col + 0x40) % 256) := by
  decide

/-- What `SetCursor` does on coordinates that pass validation. -/
theorem SetCursor_valid (row col : Nat) (hrow : row ≤ 1) (hcol : col ≤ 15) :
    ∃ offset, rowOffsets[row]? = some offset ∧
      ∀ s, SetCursor row col s =
        sendCommand (((setAddressCommand ||| col) + offset) % 256) s := by
  have hc : validColumn col = true := by simp [validColumn]; omega
  have hr : validRow row = true := by simp [validRow]; omega
  have hlt : row < 2 := by omega
  interval_cases row
  · exact ⟨0x00, rfl, fun s => by simp [SetCursor, hc, hr, rowOffsets]⟩
  · exact ⟨0x40, rfl, fun s => by simp [SetCursor, hc, hr, rowOffsets]⟩

/-- C3: for every column `c` with `0 ≤ c ≤ 15` and every state, `SetCursor 0 c` is
`sendCommand (0x80 | c)` and `SetCursor 1 c` is `sendCommand (0x80 | (0x40 + c))`
(same outcome, same bus traffic); for every valid row the byte the code computes,
`(setAddressCommand | col) + rowOffsets()[row]` in 8-bit arithmetic, equals
`0x80 | (col + rowOffsets()[row])`. -/
theorem C3_SetCursor_command (col : Nat) (hcol : col ≤ 15) (s : State) :
    SetCursor 0 col s = sendCommand (0x80 ||| col) s ∧
    SetCursor 1 col s = sendCommand (0x80 ||| ((0x40 + col) % 256)) s ∧
    ∀ row, row ≤ 1 → ∃ offset, rowOffsets[row]? = some offset ∧
      ((setAddressCommand ||| col) + offset) % 256 = 0x80 ||| ((col + offset) % 256) ∧
      SetCursor row col s = sendCommand (0x80 ||| ((col + offset) % 256)) s := by
  obtain ⟨a0, a1, a2, a3⟩ := address_facts col (by omega)
  obtain ⟨o0, ho0, e0⟩ := SetCursor_valid 0 col (by omega) hcol
  obtain ⟨o1, ho1, e1⟩ := SetCursor_valid 1 col (by omega) hcol
  have v0 : o0 = 0x00 := by simpa [rowOffsets] using ho0.symm
  have v1 : o1 = 0x40 := by simpa [rowOffsets] using ho1.symm
  subst v0 v1
  refine ⟨by rw [e0, a0], by rw [e1, a1], ?_⟩
  intro row hrow
  have hlt : row < 2 := by omega
  interval_cases row
  · exact ⟨0x00, rfl, a2, by rw [e0, a2]⟩
  · exact ⟨0x40, rfl, a3, by rw [e1, a3]⟩

theorem C3_SetCursor_command_witness :
    (5 : Nat) ≤ 15 ∧
    busWrites (SetCursor 1 5 (ready okConnection)).2.events = [0xC4, 0xC0, 0x54, 0x50] ∧
    SetCursor 1 5 (ready okConnection) = sendCommand 0xC5 (ready okConnection) :=
  ⟨by decide, by decide,
   (C3_SetCursor_command 5 (by decide) (ready okConnection)).2.1⟩

/-- C4: for every row `r` and column `c` with `r ∉ {0,1}` or `c ∉ [0,15]`, in every
state and on every bus, `SetCursor r c` returns a non-nil error built by `fmt.Errorf`
and leaves the state unchanged, so no bus write is attempted; and for `r ∈ {0,1}`,
`c ∈ [0,15]` on a connected driver whose bus writes all succeed it returns nil. -/
theorem C4_SetCursor_validation (row col : Nat) (s : State) :
    ((1 < row ∨ 15 < col) →
      (∃ msg, (SetCursor row col s).1 = Outcome.returns (some (GoError.errorf msg))) ∧
      (SetCursor row col s).2 = s ∧
      busWrites (SetCursor row col s).2.events = busWrites s.events) ∧
    ((row ≤ 1 ∧ col ≤ 15) → ∀ c, s.driver.connection = some c → (∀ n, c.outcome n = none) →
      (SetCursor row col s).1 = Outcome.returns none) := by
  constructor
  · intro h
    by_cases hcol : 15 < col
    · have hc : validColumn col = false := by simp [validColumn]; omega
      simp [SetCursor, hc]
    · have hc : validColumn col = true := by simp [validColumn]; omega
      have hr : validRow row = false := by simp [validRow]; omega
      simp [SetCursor, hc, hr]
  · rintro ⟨hrow, hcol⟩ c hc hok
    obtain ⟨offset, -, e⟩ := SetCursor_valid row col hrow hcol
    obtain ⟨d, ev⟩ := s
    rw [e, sendCommand_ok _ d ev c hc hok]

theorem C4_SetCursor_validation_witness :
    ((1 < 2 ∨ 15 < 3) ∧
      (SetCursor 2 3 (ready okConnection)).1 =
        Outcome.returns (some (GoError.errorf "invalid row coordinate: 2")) ∧
      busWrites (SetCursor 2 3 (ready okConnection)).2.events = []) ∧
    ((1 ≤ 1 ∧ 15 ≤ 15) ∧ (ready okConnection).driver.connection = some okConnection ∧
      (∀ n, okConnection.outcome n = none) ∧
      (SetCursor 1 15 (ready okConnection)).1 = Outcome.returns none) :=
  ⟨⟨by decide, by decide,
    ((C4_SetCursor_validation 2 3 (ready okConnection)).1 (by decide)).2.2⟩,
   ⟨by decide, rfl, fun _ => rfl,
    (C4_SetCursor_validation 1 15 (ready okConnection)).2 (by decide) okConnection rfl
      (fun _ => rfl)⟩⟩

/-! ## Bring-up -/

/-- C5: evaluation of `Start` on a freshly constructed driver whose connector and bus
always succeed.  The raw frame `0x30` is issued three times and then the raw frame
`0x20`, with no other bus write before or between them, but the wait after each
`0x30` frame is `time4BitMode`, which the source defines as 4500 milliseconds: the
log never contains a wait of 4500 microseconds. -/
theorem C5_set4BitMode_waits_milliseconds :
    (Start (fresh okConnection)).1 = Outcome.returns none ∧
    (Start (fresh okConnection)).2.events.take 21 =
      [Event.getConnection 0x27 1, Event.sleep (1000 * Millisecond),
       Event.writeByte 0x34, Event.sleep (1 * Microsecond),
       Event.writeByte 0x30, Event.sleep (50 * Microsecond), Event.sleep (4500 * Millisecond),
       Event.writeByte 0x34, Event.sleep (1 * Microsecond),
       Event.writeByte 0x30, Event.sleep (50 * Microsecond), Event.sleep (4500 * Millisecond),
       Event.writeByte 0x34, Event.sleep (1 * Microsecond),
       Event.writeByte 0x30, Event.sleep (50 * Microsecond), Event.sleep (4500 * Millisecond),
       Event.writeByte 0x24, Event.sleep (1 * Microsecond),
       Event.writeByte 0x20, Event.sleep (50 * Microsecond)] ∧
    Event.sleep (4500 * Microsecond) ∉ (Start (fresh okConnection)).2.events ∧
    time4BitMode = 1000 * (4500 * Microsecond) := by
  decide

/-- C6: on a driver whose connector hands out a connection without error and whose
bus writes all succeed, `Start` returns nil, stores the connection, and appends to
the log, in this order: the connection request, the 1000 ms wait, the raw frame
`0x30` three times, the raw frame `0x20`, `sendCommand 0x28`, `sendCommand 0x0C`,
`Clear` (command `0x01`) and `Home` (command `0x02`); the bus trace is exactly the 24
bytes `0x34,0x30` three times, `0x24,0x20`, `0x24,0x20,0x84,0x80`,
`0x04,0x00,0xC4,0xC0`, `0x04,0x00,0x14,0x10`, `0x04,0x00,0x24,0x20`. -/
theorem C6_Start_trace (s : State) (c : Connection)
    (hconn : s.driver.connector.GetConnection (s.driver.config.GetAddressOrDefault 0)
      (s.driver.config.GetBusOrDefault s.driver.connector.GetDefaultBus) = (some c, none))
    (hok : ∀ n, c.outcome n = none) :
    Start s =
      (Outcome.returns none,
       ⟨{ s.driver with connection := some c },
        s.events ++ [
          Event.getConnection (s.driver.config.GetAddressOrDefault 0)
            (s.driver.config.GetBusOrDefault s.driver.connector.GetDefaultBus),
          Event.sleep (1000 * Millisecond),
          Event.writeByte 0x34, Event.sleep (1 * Microsecond),
          Event.writeByte 0x30, Event.sleep (50 * Microsecond), Event.sleep time4BitMode,
          Event.writeByte 0x34, Event.sleep (1 * Microsecond),
          Event.writeByte 0x30, Event.sleep (50 * Microsecond), Event.sleep time4BitMode,
          Event.writeByte 0x34, Event.sleep (1 * Microsecond),
          Event.writeByte 0x30, Event.sleep (50 * Microsecond), Event.sleep time4BitMode,
          Event.writeByte 0x24, Event.sleep (1 * Microsecond),
          Event.writeByte 0x20, Event.sleep (50 * Microsecond),
          Event.writeByte 0x24, Event.sleep (1 * Microsecond),
          Event.writeByte 0x20, Event.sleep (50 * Microsecond),
          Event.writeByte 0x84, Event.sleep (1 * Microsecond),
          Event.writeByte 0x80, Event.sleep (50 * Microsecond),
          Event.writeByte 0x04, Event.sleep (1 * Microsecond),
          Event.writeByte 0x00, Event.sleep (50 * Microsecond),
          Event.writeByte 0xC4, Event.sleep (1 * Microsecond),
          Event.writeByte 0xC0, Event.sleep (50 * Microsecond),
          Event.writeByte 0x04, Event.sleep (1 * Microsecond),
          Event.writeByte 0x00, Event.sleep (50 * Microsecond),
          Event.writeByte 0x14, Event.sleep (1 * Microsecond),
          Event.writeByte 0x10, Event.sleep (50 * Microsecond),
          Event.sleep (2000 * Microsecond),
          Event.writeByte 0x04, Event.sleep (1 * Microsecond),
          Event.writeByte 0x00, Event.sleep (50 * Microsecond),
          Event.writeByte 0x24, Event.sleep (1 * Microsecond),
          Event.writeByte 0x20, Event.sleep (50 * Microsecond),
          Event.sleep (2000 * Microsecond)]⟩) ∧
    busWrites (Start s).2.events =
      busWrites s.events ++ [0x34, 0x30, 0x34, 0x30, 0x34, 0x30, 0x24, 0x20,
        0x24, 0x20, 0x84, 0x80, 0x04, 0x00, 0xC4, 0xC0,
        0x04, 0x00, 0x14, 0x10, 0x04, 0x00, 0x24, 0x20] := by
  obtain ⟨d, ev⟩ := s
  have hc : ({ d with connection := some c } : HD44780Driver).connection = some c := rfl
  refine (and_iff_left_of_imp fun key => ?_).mpr ?_
  · rw [key]
    simp [busWrites_append, busWrites]
  · dsimp only at hconn
    simp only [Start, setupConnection, hconn, orReturn_nil, Sleep, setLcdFunction, enableDisplay]
    rw [set4BitMode_ok _ _ c hc hok]
    simp only [orReturn_nil]
    rw [sendCommand_ok _ _ _ c hc hok]
    simp only [orReturn_nil]
    rw [sendCommand_ok _ _ _ c hc hok]
    simp only [orReturn_nil]
    rw [Clear_ok _ _ c hc hok]
    simp only [orReturn_nil]
    rw [Home_ok _ _ c hc hok]
    simp only [orReturn_nil, List.append_assoc, List.cons_append, List.nil_append]
    rfl

theorem C6_Start_trace_witness :
    ((fresh okConnection).driver.connector.GetConnection
        ((fresh okConnection).driver.config.GetAddressOrDefault 0)
        ((fresh okConnection).driver.config.GetBusOrDefault
          (fresh okConnection).driver.connector.GetDefaultBus) = (some okConnection, none) ∧
      ∀ n, okConnection.outcome n = none) ∧
    busWrites (Start (fresh okConnection)).2.events =
      [0x34, 0x30, 0x34, 0x30, 0x34, 0x30, 0x24, 0x20,
        0x24, 0x20, 0x84, 0x80, 0x04, 0x00, 0xC4, 0xC0,
        0x04, 0x00, 0x14, 0x10, 0x04, 0x00, 0x24, 0x20] :=
  ⟨⟨rfl, fun _ => rfl⟩, (C6_Start_trace (fresh okConnection) okConnection rfl (fun _ => rfl)).2⟩

/-! ## Transport failures -/

theorem orReturn_of_err (r : Outcome × State) (e : GoError) (rest : State → Outcome × State)
    (h : r.1 = Outcome.returns (some e)) : orReturn r rest = r := by
  obtain ⟨o, s⟩ := r
  simp only at h
  subst h
  rfl

/-- One raw frame when write number `k` (1 or 2) of the frame is the first to fail. -/
theorem frame_fail (x : Nat) (d : HD44780Driver) (ev : List Event) (c : Connection)
    (hc : d.connection = some c) (k : Nat) (e : GoError) (hk : 1 ≤ k ∧ k ≤ 2)
    (hbefore : ∀ i, i + 1 < k → c.outcome ((busWrites ev).length + i) = none)
    (hfail : c.outcome ((busWrites ev).length + (k - 1)) = some e) :
    (send4BitCommand x ⟨d, ev⟩).1 = Outcome.returns (some e) ∧
    (send4BitCommand x ⟨d, ev⟩).2.driver = d ∧
    busWrites (send4BitCommand x ⟨d, ev⟩).2.events =
      busWrites ev ++ [withEnable x, withoutEnable x].take k := by
  obtain ⟨h1, h2⟩ := hk
  rw [send4BitCommand_cases x ⟨d, ev⟩ c hc]
  interval_cases k
  · simp only [Nat.sub_self, Nat.add_zero] at hfail
    simp [hfail, busWrites_append, busWrites]
  · have h0 := hbefore 0 (by omega)
    simp only [Nat.add_zero] at h0
    simp only [Nat.add_one_sub_one] at hfail
    simp [h0, hfail, busWrites_append, busWrites]

/-- One raw frame whose two writes both succeed. -/
theorem frame_pass (x : Nat) (d : HD44780Driver) (ev : List Event) (c : Connection)
    (hc : d.connection = some c)
    (h0 : c.outcome (busWrites ev).length = none)
    (h1 : c.outcome ((busWrites ev).length + 1) = none) :
    send4BitCommand x ⟨d, ev⟩ =
      (Outcome.returns none,
       ⟨d, ev ++ [Event.writeByte (withEnable x), Event.sleep enablePulseTime,
           Event.writeByte (withoutEnable x), Event.sleep commandSettleTime]⟩) := by
  rw [send4BitCommand_cases x ⟨d, ev⟩ c hc]
  simp [h0, h1]

/-- Two raw frames in a row when write number `k` (1 to 4) is the first to fail. -/
theorem twoFrames_fail (x y : Nat) (d : HD44780Driver) (ev : List Event) (c : Connection)
    (hc : d.connection = some c) (k : Nat) (e : GoError) (hk : 1 ≤ k ∧ k ≤ 4)
    (hbefore : ∀ i, i + 1 < k → c.outcome ((busWrites ev).length + i) = none)
    (hfail : c.outcome ((busWrites ev).length + (k - 1)) = some e) :
    (orReturn (send4BitCommand x ⟨d, ev⟩) fun s =>
      orReturn (send4BitCommand y s) fun s => (Outcome.returns none, s)).1 =
      Outcome.returns (some e) ∧
    (orReturn (send4BitCommand x ⟨d, ev⟩) fun s =>
      orReturn (send4BitCommand y s) fun s => (Outcome.returns none, s)).2.driver = d ∧
    busWrites (orReturn (send4BitCommand x ⟨d, ev⟩) fun s =>
      orReturn (send4BitCommand y s) fun s => (Outcome.returns none, s)).2.events =
      busWrites ev ++ [withEnable x, withoutEnable x, withEnable y, withoutEnable y].take k := by
  obtain ⟨h1, h4⟩ := hk
  by_cases hk2 : k ≤ 2
  · obtain ⟨r1, r2, r3⟩ := frame_fail x d ev c hc k e ⟨h1, hk2⟩ hbefore hfail
    rw [orReturn_of_err _ e _ r1]
    refine ⟨r1, r2, ?_⟩
    rw [r3]
    interval_cases k <;> rfl
  · have h0 := hbefore 0 (by omega)
    have h1 := hbefore 1 (by omega)
    simp only [Nat.add_zero] at h0
    rw [frame_pass x d ev c hc h0 h1]
    simp only [orReturn_nil]
    have len : (busWrites (ev ++ [Event.writeByte (withEnable x), Event.sleep enablePulseTime,
        Event.writeByte (withoutEnable x), Event.sleep commandSettleTime])).length =
        (busWrites ev).length + 2 := by
      simp [busWrites_append, busWrites]
    obtain ⟨r1, r2, r3⟩ := frame_fail y d _ c hc (k - 2) e ⟨by omega, by omega⟩
      (by intro i hi
          rw [len]
          have := hbefore (i + 2) (by omega)
          rw [← this]
          congr 1
          omega)
      (by rw [len, ← hfail]
          congr 1
          omega)
    rw [orReturn_of_err _ e _ r1]
    refine ⟨r1, r2, ?_⟩
    rw [r3]
    have hk34 : k = 3 ∨ k = 4 := by omega
    rcases hk34 with rfl | rfl <;> simp [busWrites_append, busWrites]

theorem orReturn_pure (r : Outcome × State) :
    orReturn r (fun s => (Outcome.returns none, s)) = r := by
  obtain ⟨o, s⟩ := r
  cases o with
  | returns err => cases err <;> rfl
  | panics => rfl

/-- Any method that starts with two raw frames, when write number `k` is the first to fail. -/
theorem twoFrames_op_fail (f : State → Outcome × State) (x y : Nat)
    (hf : ∀ s, ∃ rest, f s = orReturn (orReturn (send4BitCommand x s) fun s =>
      orReturn (send4BitCommand y s) fun s => (Outcome.returns none, s)) rest)
    (trace : List Nat)
    (htrace : trace = [withEnable x, withoutEnable x, withEnable y, withoutEnable y])
    (s : State) (c : Connection) (hc : s.driver.connection = some c)
    (k : Nat) (e : GoError) (hk : 1 ≤ k ∧ k ≤ trace.length)
    (hbefore : ∀ i, i + 1 < k → c.outcome ((busWrites s.events).length + i) = none)
    (hfail : c.outcome ((busWrites s.events).length + (k - 1)) = some e) :
    (f s).1 = Outcome.returns (some e) ∧
    busWrites (f s).2.events = busWrites s.events ++ trace.take k ∧
    (busWrites (f s).2.events).length = (busWrites s.events).length + k ∧
    (k % 2 = 1 → ∃ v, (busWrites (f s).2.events).getLast? = some (withEnable v)) := by
  obtain ⟨d, ev⟩ := s
  subst htrace
  have hk4 : 1 ≤ k ∧ k ≤ 4 := by simpa using hk
  obtain ⟨rest, hrest⟩ := hf ⟨d, ev⟩
  obtain ⟨r1, -, r3⟩ := twoFrames_fail x y d ev c hc k e hk4 hbefore hfail
  rw [hrest, orReturn_of_err _ e _ r1]
  refine ⟨r1, r3, ?_, ?_⟩
  · rw [r3, List.length_append, List.length_take]
    simp only [List.length_cons, List.length_nil]
    omega
  · intro hodd
    rw [r3]
    have hk13 : k = 1 ∨ k = 3 := by omega
    rcases hk13 with rfl | rfl
    · exact ⟨x, by simp⟩
    · exact ⟨y, by simp⟩

theorem successTrace_send4BitCommand (x : Nat) :
    busWrites (send4BitCommand x (ready okConnection)).2.events =
      [withEnable x, withoutEnable x] := by
  have h := send4BitCommand_ok x (ready okConnection).driver [] okConnection rfl (fun _ => rfl)
  show busWrites (send4BitCommand x ⟨(ready okConnection).driver, []⟩).2.events = _
  rw [h]
  rfl

theorem successTrace_sendCommand (b : Nat) :
    busWrites (sendCommand b (ready okConnection)).2.events =
      [withEnable (highNibble b), withoutEnable (highNibble b),
       withEnable (lowNibble b), withoutEnable (lowNibble b)] := by
  unfold ready
  rw [sendCommand_ok b _ [] okConnection rfl (fun _ => rfl)]
  rfl

theorem successTrace_sendData (b : Nat) :
    busWrites (sendData b (ready okConnection)).2.events =
      [withEnable (highNibble b ||| 1), withoutEnable (highNibble b ||| 1),
       withEnable (lowNibble b ||| 1), withoutEnable (lowNibble b ||| 1)] := by
  unfold ready
  rw [sendData_ok b _ [] okConnection rfl (fun _ => rfl)]
  rfl

/-- C7: for each of `send4BitCommand`, `sendCommand`, `sendData`, `Clear`, `Home`,
`SetCursor` (with valid coordinates) and `Write`, on a connected driver in any state
and for every `k` from 1 to the length of the operation's success trace: if the `k`-th
bus write the operation attempts is the first to fail, with error `e`, then the
operation returns exactly `e`, the bytes it attempted are exactly the first `k` bytes
of its success trace (so exactly `k` writes were attempted and none after the failing
one), and when `k` is odd the last write attempted is an enable-asserted one, whose
enable-cleared partner is therefore never attempted. -/
theorem C7_first_failed_write (op : Operation)
    (hvalid : ∀ row col, op = Operation.SetCursor row col → row ≤ 1 ∧ col ≤ 15)
    (s : State) (c : Connection) (hc : s.driver.connection = some c)
    (k : Nat) (e : GoError) (hk : 1 ≤ k ∧ k ≤ op.successTrace.length)
    (hbefore : ∀ i, i + 1 < k → c.outcome ((busWrites s.events).length + i) = none)
    (hfail : c.outcome ((busWrites s.events).length + (k - 1)) = some e) :
    (op.run s).1 = Outcome.returns (some e) ∧
    busWrites (op.run s).2.events = busWrites s.events ++ op.successTrace.take k ∧
    (busWrites (op.run s).2.events).length = (busWrites s.events).length + k ∧
    (k % 2 = 1 → ∃ v, (busWrites (op.run s).2.events).getLast? = some (withEnable v)) := by
  cases op with
  | send4BitCommand x =>
    have htrace : (Operation.send4BitCommand x).successTrace =
        [withEnable x, withoutEnable x] := successTrace_send4BitCommand x
    rw [htrace] at hk ⊢
    obtain ⟨d, ev⟩ := s
    have hk2 : 1 ≤ k ∧ k ≤ 2 := by simpa using hk
    obtain ⟨r1, -, r3⟩ := frame_fail x d ev c hc k e hk2 hbefore hfail
    refine ⟨r1, r3, ?_, ?_⟩
    · show (busWrites (send4BitCommand x ⟨d, ev⟩).2.events).length = _
      rw [r3, List.length_append, List.length_take]
      simp only [List.length_cons, List.length_nil]
      omega
    · intro hodd
      have hk1 : k = 1 := by omega
      subst hk1
      refine ⟨x, ?_⟩
      show (busWrites (send4BitCommand x ⟨d, ev⟩).2.events).getLast? = _
      rw [r3]
      simp
  | sendCommand b =>
    exact twoFrames_op_fail (sendCommand b) (highNibble b) (lowNibble b)
      (fun s => ⟨_, (orReturn_pure _).symm⟩) _ (successTrace_sendCommand b)
      s c hc k e hk hbefore hfail
  | sendData b =>
    exact twoFrames_op_fail (sendData b) (highNibble b ||| 1) (lowNibble b ||| 1)
      (fun s => ⟨_, (orReturn_pure _).symm⟩) _ (successTrace_sendData b)
      s c hc k e hk hbefore hfail
  | Clear =>
    refine twoFrames_op_fail Clear (highNibble commandClearDisplay)
      (lowNibble commandClearDisplay) (fun s => ⟨_, rfl⟩) _ ?_ s c hc k e hk hbefore hfail
    decide
  | Home =>
    refine twoFrames_op_fail Home (highNibble commandHome)
      (lowNibble commandHome) (fun s => ⟨_, rfl⟩) _ ?_ s c hc k e hk hbefore hfail
    decide
  | SetCursor row col =>
    obtain ⟨hrow, hcol⟩ := hvalid row col rfl
    obtain ⟨offset, -, hrun⟩ := SetCursor_valid row col hrow hcol
    refine twoFrames_op_fail (SetCursor row col)
      (highNibble (((setAddressCommand ||| col) + offset) % 256))
      (lowNibble (((setAddressCommand ||| col) + offset) % 256))
      (fun s => ⟨_, (hrun s).trans (orReturn_pure _).symm⟩) _ ?_ s c hc k e hk hbefore hfail
    show busWrites (SetCursor row col (ready okConnection)).2.events = _
    rw [hrun]
    exact successTrace_sendCommand _
  | Write r =>
    exact twoFrames_op_fail (Write r) (highNibble (byte r) ||| 1) (lowNibble (byte r) ||| 1)
      (fun s => ⟨_, (orReturn_pure _).symm⟩) _ (successTrace_sendData (byte r))
      s c hc k e hk hbefore hfail

theorem C7_first_failed_write_witness :
    ((1 ≤ 3 ∧ 3 ≤ (Operation.SetCursor 1 5).successTrace.length) ∧
      (failingConnection 2 (GoError.transport 7)).outcome 2 = some (GoError.transport 7)) ∧
    (SetCursor 1 5 (ready (failingConnection 2 (GoError.transport 7)))).1 =
      Outcome.returns (some (GoError.transport 7)) ∧
    busWrites (SetCursor 1 5 (ready (failingConnection 2 (GoError.transport 7)))).2.events =
      [0xC4, 0xC0, 0x54] :=
  ⟨⟨by decide, rfl⟩,
   (C7_first_failed_write (Operation.SetCursor 1 5)
      (fun row col h => by injection h with h1 h2; subst h1 h2; decide)
      (ready (failingConnection 2 (GoError.transport 7)))
      (failingConnection 2 (GoError.transport 7)) rfl 3 (GoError.transport 7)
      (by decide)
      (fun i hi => by
        have hne : ¬ (0 + i = 2) := by omega
        simp only [failingConnection, ready, busWrites, List.length_nil, hne, if_false])
      rfl).1,
   (C7_first_failed_write (Operation.SetCursor 1 5)
      (fun row col h => by injection h with h1 h2; subst h1 h2; decide)
      (ready (failingConnection 2 (GoError.transport 7)))
      (failingConnection 2 (GoError.transport 7)) rfl 3 (GoError.transport 7)
      (by decide)
      (fun i hi => by
        have hne : ¬ (0 + i = 2) := by omega
        simp only [failingConnection, ready, busWrites, List.length_nil, hne, if_false])
      rfl).2.1⟩

/-! ## Characters and strings -/

theorem orReturn_of_ne (r : Outcome × State) (rest : State → Outcome × State)
    (h : r.1 ≠ Outcome.returns none) : orReturn r rest = r := by
  obtain ⟨o, s⟩ := r
  cases o with
  | returns err =>
    cases err with
    | none => exact absurd rfl h
    | some e => rfl
  | panics => rfl

theorem orReturn_of_nil (r : Outcome × State) (rest : State → Outcome × State)
    (h : r.1 = Outcome.returns none) : orReturn r rest = rest r.2 := by
  obtain ⟨o, s⟩ := r
  simp only at h
  subst h
  rfl

/-- The log only grows: one raw frame. -/
theorem send4BitCommand_extends (v : Nat) (s : State) :
    s.events <+: (send4BitCommand v s).2.events := by
  cases hconn : s.driver.connection with
  | none => simp [send4BitCommand, hconn]
  | some c =>
    rw [send4BitCommand_cases v s c hconn]
    cases c.outcome (busWrites s.events).length with
    | some e => exact List.prefix_append _ _
    | none =>
      cases c.outcome ((busWrites s.events).length + 1) with
      | some e => exact List.prefix_append _ _
      | none => exact List.prefix_append _ _

theorem orReturn_extends (f : State → Outcome × State) (rest : State → Outcome × State)
    (hf : ∀ s, s.events <+: (f s).2.events) (hrest : ∀ s, s.events <+: (rest s).2.events)
    (s : State) : s.events <+: (orReturn (f s) rest).2.events := by
  by_cases h : (f s).1 = Outcome.returns none
  · rw [orReturn_of_nil _ _ h]
    exact (hf s).trans (hrest _)
  · rw [orReturn_of_ne _ _ h]
    exact hf s

theorem Write_extends (c : Int) (s : State) : s.events <+: (Write c s).2.events :=
  orReturn_extends _ _ (send4BitCommand_extends _)
    (fun s => orReturn_extends _ _ (send4BitCommand_extends _)
      (fun s => List.prefix_refl s.events) s) s

theorem range_extends (cs : List Char) (s : State) :
    s.events <+: (WriteString.range cs s).2.events := by
  induction cs generalizing s with
  | nil => exact List.prefix_refl _
  | cons ch cs ih => exact orReturn_extends _ _ (Write_extends _) ih s

theorem range_append_fail (pre : List Char) (ch : Char) (post : List Char) (s s1 : State)
    (e : GoError) (hpre : WriteString.range pre s = (Outcome.returns none, s1))
    (hch : (Write (Int.ofNat ch.toNat) s1).1 = Outcome.returns (some e)) :
    WriteString.range (pre ++ ch :: post) s = Write (Int.ofNat ch.toNat) s1 := by
  induction pre generalizing s with
  | nil =>
    simp only [WriteString.range, Prod.mk.injEq, true_and] at hpre
    subst hpre
    simp only [List.nil_append, WriteString.range]
    exact orReturn_of_err _ e _ hch
  | cons p ps ih =>
    simp only [List.cons_append, WriteString.range] at hpre ⊢
    by_cases h : (Write (Int.ofNat p.toNat) s).1 = Outcome.returns none
    · rw [orReturn_of_nil _ _ h] at hpre ⊢
      exact ih _ hpre
    · rw [orReturn_of_ne _ _ h] at hpre
      rw [hpre] at h
      exact absurd rfl h

theorem range_ok (cs : List Char) (d : HD44780Driver) (ev : List Event) (c : Connection)
    (hc : d.connection = some c) (hok : ∀ n, c.outcome n = none) :
    WriteString.range cs ⟨d, ev⟩ =
      (Outcome.returns none,
       ⟨d, ev ++ (cs.map fun ch => writeTrace (Int.ofNat ch.toNat)).flatten⟩) := by
  induction cs generalizing ev with
  | nil => simp [WriteString.range]
  | cons ch cs ih =>
    have htrace : writeTrace (Int.ofNat ch.toNat) =
        [Event.writeByte (withEnable (highNibble (byte (Int.ofNat ch.toNat)) ||| 1)),
         Event.sleep enablePulseTime,
         Event.writeByte (withoutEnable (highNibble (byte (Int.ofNat ch.toNat)) ||| 1)),
         Event.sleep commandSettleTime,
         Event.writeByte (withEnable (lowNibble (byte (Int.ofNat ch.toNat)) ||| 1)),
         Event.sleep enablePulseTime,
         Event.writeByte (withoutEnable (lowNibble (byte (Int.ofNat ch.toNat)) ||| 1)),
         Event.sleep commandSettleTime] := by
      have h := sendData_ok (byte (Int.ofNat ch.toNat)) (ready okConnection).driver []
        okConnection rfl (fun _ => rfl)
      show (sendData (byte (Int.ofNat ch.toNat)) ⟨(ready okConnection).driver, []⟩).2.events = _
      rw [h]
      rfl
    simp only [WriteString.range, Write, List.map_cons, List.flatten_cons]
    rw [sendData_ok _ d ev c hc hok]
    simp only [orReturn_nil]
    rw [ih, htrace]
    simp

/-- C8: `WriteString s` calls `Write` on each character of `s` once, left to right.
On a connected driver whose bus writes all succeed it returns nil and appends to the
log the concatenation of the logs of `Write c` for the characters `c` of `s` in order.
`WriteString "AB"` is `Write 'A'` followed by `Write 'B'`, and is `Write 'A'` alone
when that fails.  In general, if the characters before some character all succeed
and `Write` of that character returns an error, `WriteString` returns that error in
the state `Write` left, whatever characters follow, and the log written for the
earlier characters is still a prefix of the final log. -/
theorem C8_WriteString_sequence (s : State) :
    (∀ str c, s.driver.connection = some c → (∀ n, c.outcome n = none) →
      WriteString str s =
        (Outcome.returns none,
         { s with events := s.events ++
             (str.data.map fun ch => writeTrace (Int.ofNat ch.toNat)).flatten })) ∧
    ((Write (Int.ofNat 'A'.toNat) s).1 = Outcome.returns none →
      WriteString "AB" s = Write (Int.ofNat 'B'.toNat) (Write (Int.ofNat 'A'.toNat) s).2) ∧
    ((Write (Int.ofNat 'A'.toNat) s).1 ≠ Outcome.returns none →
      WriteString "AB" s = Write (Int.ofNat 'A'.toNat) s) ∧
    (∀ pre ch post s1 e, WriteString (String.mk pre) s = (Outcome.returns none, s1) →
      (Write (Int.ofNat ch.toNat) s1).1 = Outcome.returns (some e) →
      WriteString (String.mk (pre ++ ch :: post)) s = Write (Int.ofNat ch.toNat) s1 ∧
      (WriteString (String.mk (pre ++ ch :: post)) s).1 = Outcome.returns (some e) ∧
      s.events <+: s1.events ∧
      s1.events <+: (WriteString (String.mk (pre ++ ch :: post)) s).2.events) := by
  refine ⟨?_, ?_, ?_, ?_⟩
  · intro str c hc hok
    obtain ⟨d, ev⟩ := s
    exact range_ok str.data d ev c hc hok
  · intro h
    show orReturn (Write (Int.ofNat 'A'.toNat) s)
      (fun s => orReturn (Write (Int.ofNat 'B'.toNat) s) fun s => _) = _
    rw [orReturn_of_nil _ _ h]
    exact orReturn_pure _
  · intro h
    show orReturn (Write (Int.ofNat 'A'.toNat) s)
      (fun s => orReturn (Write (Int.ofNat 'B'.toNat) s) fun s => _) = _
    exact orReturn_of_ne _ _ h
  · intro pre ch post s1 e hpre hch
    have key := range_append_fail pre ch post s s1 e hpre hch
    have hs1 : s1 = (WriteString.range pre s).2 := by
      have : WriteString.range pre s = (Outcome.returns none, s1) := hpre
      rw [this]
    refine ⟨key, ?_, ?_, ?_⟩
    · show (WriteString.range (pre ++ ch :: post) s).1 = _
      rw [key, hch]
    · rw [hs1]
      exact range_extends pre s
    · show s1.events <+: (WriteString.range (pre ++ ch :: post) s).2.events
      rw [key]
      exact Write_extends _ s1

theorem C8_WriteString_sequence_witness :
    (((ready okConnection).driver.connection = some okConnection ∧
        ∀ n, okConnection.outcome n = none) ∧
      WriteString "AB" (ready okConnection) =
        (Outcome.returns none,
         { ready okConnection with events := (ready okConnection).events ++
             ("AB".data.map fun ch => writeTrace (Int.ofNat ch.toNat)).flatten })) ∧
    ((WriteString (String.mk ['A']) (ready (failingConnection 5 (GoError.transport 7))) =
        (Outcome.returns none,
         (WriteString (String.mk ['A']) (ready (failingConnection 5 (GoError.transport 7)))).2) ∧
      (Write (Int.ofNat 'B'.toNat)
        (WriteString (String.mk ['A']) (ready (failingConnection 5 (GoError.transport 7)))).2).1 =
        Outcome.returns (some (GoError.transport 7))) ∧
      (WriteString (String.mk (['A'] ++ 'B' :: ['C']))
        (ready (failingConnection 5 (GoError.transport 7)))).1 =
        Outcome.returns (some (GoError.transport 7))) :=
  ⟨⟨⟨rfl, fun _ => rfl⟩,
    (C8_WriteString_sequence (ready okConnection)).1 "AB" okConnection rfl (fun _ => rfl)⟩,
   ⟨⟨rfl, rfl⟩,
    ((C8_WriteString_sequence (ready (failingConnection 5 (GoError.transport 7)))).2.2.2
      ['A'] 'B' ['C'] _ (GoError.transport 7) rfl rfl).2.1⟩⟩

/-- C9: for every rune `c` and every state, `Write c` is `sendData` of `c mod 256`
(the low 8 bits, also for negative values); two runes that agree modulo 256, such
as `c` and `c + 0x100`, give the same outcome and the same log; and on a connected
driver whose bus writes all succeed `Write c` returns nil for every `c`, code points
above `0xFF` included, writing the four bytes of `sendData (c mod 256)`. -/
theorem C9_Write_truncates (c : Int) (s : State) :
    Write c s = sendData (c % 256).toNat s ∧
    (c % 256).toNat < 256 ∧
    (∀ c2 : Int, c % 256 = c2 % 256 → Write c s = Write c2 s) ∧
    Write (c + 0x100) s = Write c s ∧
    (∀ conn, s.driver.connection = some conn → (∀ n, conn.outcome n = none) →
      (Write c s).1 = Outcome.returns none ∧
      busWrites (Write c s).2.events =
        busWrites s.events ++ [((c % 256).toNat &&& 0xF0) ||| 0x05,
          ((c % 256).toNat &&& 0xF0) ||| 0x01,
          ((((c % 256).toNat <<< 4) % 256) &&& 0xF0) ||| 0x05,
          ((((c % 256).toNat <<< 4) % 256) &&& 0xF0) ||| 0x01]) := by
  have hlt : (c % 256).toNat < 256 := by
    have h1 : c % 256 < 256 := Int.emod_lt_of_pos c (by norm_num)
    have h2 : 0 ≤ c % 256 := Int.emod_nonneg c (by norm_num)
    omega
  refine ⟨rfl, hlt, ?_, ?_, ?_⟩
  · intro c2 h
    simp only [Write, byte, h]
  · simp only [Write, byte, Int.add_emod_self]
  · intro conn hc hok
    obtain ⟨-, -, h3, h4, h5, h6⟩ := byte_facts _ hlt
    obtain ⟨d, ev⟩ := s
    have key := sendData_ok (c % 256).toNat d ev conn hc hok
    rw [h3, h4, h5, h6] at key
    show (sendData (c % 256).toNat ⟨d, ev⟩).1 = _ ∧
      busWrites (sendData (c % 256).toNat ⟨d, ev⟩).2.events = _
    rw [key]
    simp [busWrites_append, busWrites]

theorem C9_Write_truncates_witness :
    ((0x141 : Int) % 256 = 0x41 % 256 ∧
      (ready okConnection).driver.connection = some okConnection ∧
      ∀ n, okConnection.outcome n = none) ∧
    Write 0x141 (ready okConnection) = Write 0x41 (ready okConnection) ∧
    (Write 0x141 (ready okConnection)).1 = Outcome.returns none :=
  ⟨⟨by decide, rfl, fun _ => rfl⟩,
   (C9_Write_truncates 0x141 (ready okConnection)).2.2.1 0x41 (by decide),
   ((C9_Write_truncates 0x141 (ready okConnection)).2.2.2.2 okConnection rfl
      (fun _ => rfl)).1⟩

/-! ## Clear and Home -/

/-- C10: on a connected driver whose bus writes all succeed, `Clear` returns nil and
is one `sendCommand 0x01` (bus bytes `0x04, 0x00, 0x14, 0x10`) followed by one wait of
2000 µs, and `Home` returns nil and is one `sendCommand 0x02` (bus bytes
`0x04, 0x00, 0x24, 0x20`) followed by one wait of 2000 µs, with no other bus write; and
on any driver, when the `sendCommand` does not return nil, `Clear` and `Home` end in
exactly the outcome and state of that `sendCommand`, so the wait is not performed. -/
theorem C10_Clear_Home (s : State) :
    (∀ c, s.driver.connection = some c → (∀ n, c.outcome n = none) →
      (sendCommand 0x01 s).1 = Outcome.returns none ∧
      Clear s = (Outcome.returns none, Sleep (2000 * Microsecond) (sendCommand 0x01 s).2) ∧
      Clear s =
        (Outcome.returns none,
         { s with events := s.events ++ [
             Event.writeByte 0x04, Event.sleep (1 * Microsecond),
             Event.writeByte 0x00, Event.sleep (50 * Microsecond),
             Event.writeByte 0x14, Event.sleep (1 * Microsecond),
             Event.writeByte 0x10, Event.sleep (50 * Microsecond),
             Event.sleep (2000 * Microsecond)] }) ∧
      busWrites (Clear s).2.events = busWrites s.events ++ [0x04, 0x00, 0x14, 0x10] ∧
      (sendCommand 0x02 s).1 = Outcome.returns none ∧
      Home s = (Outcome.returns none, Sleep (2000 * Microsecond) (sendCommand 0x02 s).2) ∧
      Home s =
        (Outcome.returns none,
         { s with events := s.events ++ [
             Event.writeByte 0x04, Event.sleep (1 * Microsecond),
             Event.writeByte 0x00, Event.sleep (50 * Microsecond),
             Event.writeByte 0x24, Event.sleep (1 * Microsecond),
             Event.writeByte 0x20, Event.sleep (50 * Microsecond),
             Event.sleep (2000 * Microsecond)] }) ∧
      busWrites (Home s).2.events = busWrites s.events ++ [0x04, 0x00, 0x24, 0x20]) ∧
    ((sendCommand 0x01 s).1 ≠ Outcome.returns none → Clear s = sendCommand 0x01 s) ∧
    ((sendCommand 0x02 s).1 ≠ Outcome.returns none → Home s = sendCommand 0x02 s) := by
  refine ⟨?_, fun h => orReturn_of_ne _ _ h, fun h => orReturn_of_ne _ _ h⟩
  intro c hc hok
  obtain ⟨d, ev⟩ := s
  have c1 := sendCommand_ok 0x01 d ev c hc hok
  have c2 := sendCommand_ok 0x02 d ev c hc hok
  have k1 := Clear_ok d ev c hc hok
  have k2 := Home_ok d ev c hc hok
  refine ⟨congrArg Prod.fst c1, ?_, k1, ?_, congrArg Prod.fst c2, ?_, k2, ?_⟩
  · exact orReturn_of_nil _ _ (congrArg Prod.fst c1)
  · rw [k1]
    simp [busWrites_append, busWrites]
  · exact orReturn_of_nil _ _ (congrArg Prod.fst c2)
  · rw [k2]
    simp [busWrites_append, busWrites]

theorem C10_Clear_Home_witness :
    (((ready okConnection).driver.connection = some okConnection ∧
        ∀ n, okConnection.outcome n = none) ∧
      busWrites (Clear (ready okConnection)).2.events = [0x04, 0x00, 0x14, 0x10]) ∧
    ((sendCommand 0x02 (ready (failingConnection 1 (GoError.transport 7)))).1 ≠
        Outcome.returns none ∧
      Home (ready (failingConnection 1 (GoError.transport 7))) =
        sendCommand 0x02 (ready (failingConnection 1 (GoError.transport 7)))) :=
  ⟨⟨⟨rfl, fun _ => rfl⟩,
    ((C10_Clear_Home (ready okConnection)).1 okConnection rfl (fun _ => rfl)).2.2.2.1⟩,
   ⟨by decide, (C10_Clear_Home (ready (failingConnection 1 (GoError.transport 7)))).2.2
      (by decide)⟩⟩

/-! ## Carrying a property through the methods -/

theorem orReturn_inv {V : Nat → Prop} {Q : State → Outcome × State → Prop}
    (h : FrameInvariant V Q) (s : State) (r : Outcome × State) (g : State → Outcome × State)
    (hr : Q s r) (hg : ∀ s1, Q s1 (g s1)) : Q s (orReturn r g) := by
  by_cases hnil : r.1 = Outcome.returns none
  · rw [orReturn_of_nil _ _ hnil]
    obtain ⟨o, s1⟩ := r
    simp only at hnil
    subst hnil
    exact h.trans s s1 _ hr (hg s1)
  · rw [orReturn_of_ne _ _ hnil]
    exact hr

theorem byte_lt (c : Int) : byte c < 256 := by
  have h1 : c % 256 < 256 := Int.emod_lt_of_pos c (by norm_num)
  have h2 : 0 ≤ c % 256 := Int.emod_nonneg c (by norm_num)
  unfold byte
  omega

theorem sendCommand_inv {V : Nat → Prop} {Q : State → Outcome × State → Prop}
    (h : FrameInvariant V Q) (b : Nat) (hb : V (highNibble b) ∧ V (lowNibble b)) (s : State) :
    Q s (sendCommand b s) :=
  orReturn_inv h s _ _ (h.frame _ s hb.1) fun s1 =>
    orReturn_inv h s1 _ _ (h.frame _ s1 hb.2) fun s2 => h.stay _ s2

theorem sendData_inv {V : Nat → Prop} {Q : State → Outcome × State → Prop}
    (h : FrameInvariant V Q) (b : Nat)
    (hb : V (highNibble b ||| 1) ∧ V (lowNibble b ||| 1)) (s : State) :
    Q s (sendData b s) :=
  orReturn_inv h s _ _ (h.frame _ s hb.1) fun s1 =>
    orReturn_inv h s1 _ _ (h.frame _ s1 hb.2) fun s2 => h.stay _ s2

theorem Clear_inv {V : Nat → Prop} {Q : State → Outcome × State → Prop}
    (h : FrameInvariant V Q) (hcmd : ∀ b, b < 256 → V (highNibble b) ∧ V (lowNibble b))
    (s : State) : Q s (Clear s) :=
  orReturn_inv h s _ _ (sendCommand_inv h _ (hcmd commandClearDisplay (by decide)) s)
    fun s1 => h.sleep _ s1

theorem Home_inv {V : Nat → Prop} {Q : State → Outcome × State → Prop}
    (h : FrameInvariant V Q) (hcmd : ∀ b, b < 256 → V (highNibble b) ∧ V (lowNibble b))
    (s : State) : Q s (Home s) :=
  orReturn_inv h s _ _ (sendCommand_inv h _ (hcmd commandHome (by decide)) s)
    fun s1 => h.sleep _ s1

theorem SetCursor_inv {V : Nat → Prop} {Q : State → Outcome × State → Prop}
    (h : FrameInvariant V Q) (hcmd : ∀ b, b < 256 → V (highNibble b) ∧ V (lowNibble b))
    (row col : Nat) (s : State) : Q s (SetCursor row col s) := by
  unfold SetCursor
  split
  · exact h.stay _ s
  · split
    · exact h.stay _ s
    · split
      · exact h.stay _ s
      · exact sendCommand_inv h _ (hcmd _ (Nat.mod_lt _ (by norm_num))) s

theorem Write_inv {V : Nat → Prop} {Q : State → Outcome × State → Prop}
    (h : FrameInvariant V Q)
    (hdat : ∀ b, b < 256 → V (highNibble b ||| 1) ∧ V (lowNibble b ||| 1))
    (c : Int) (s : State) : Q s (Write c s) :=
  sendData_inv h _ (hdat _ (byte_lt c)) s

theorem range_inv {V : Nat → Prop} {Q : State → Outcome × State → Prop}
    (h : FrameInvariant V Q)
    (hdat : ∀ b, b < 256 → V (highNibble b ||| 1) ∧ V (lowNibble b ||| 1))
    (cs : List Char) (s : State) : Q s (WriteString.range cs s) := by
  induction cs generalizing s with
  | nil => exact h.stay _ s
  | cons ch cs ih => exact orReturn_inv h s _ _ (Write_inv h hdat _ s) ih

theorem loop_inv {V : Nat → Prop} {Q : State → Outcome × State → Prop}
    (h : FrameInvariant V Q) (hcmd : ∀ b, b < 256 → V (highNibble b) ∧ V (lowNibble b))
    (n : Nat) (s : State) : Q s (set4BitMode.loop n s) := by
  induction n generalizing s with
  | zero => exact h.stay _ s
  | succ n ih =>
    exact orReturn_inv h s _ _ (h.frame _ s (hcmd 0x30 (by decide)).1) fun s1 =>
      h.trans s1 _ _ (h.sleep time4BitMode s1) (ih _)

theorem set4BitMode_inv {V : Nat → Prop} {Q : State → Outcome × State → Prop}
    (h : FrameInvariant V Q) (hcmd : ∀ b, b < 256 → V (highNibble b) ∧ V (lowNibble b))
    (s : State) : Q s (set4BitMode s) :=
  orReturn_inv h s _ _ (loop_inv h hcmd _ s) fun s1 => h.frame _ s1 (hcmd 0x20 (by decide)).1

/-- The body of `Start` after the connection has been set up. -/
theorem startRest_inv {V : Nat → Prop} {Q : State → Outcome × State → Prop}
    (h : FrameInvariant V Q) (hcmd : ∀ b, b < 256 → V (highNibble b) ∧ V (lowNibble b))
    (s : State) :
    Q s (orReturn (set4BitMode (Sleep lcdStartTime s)) fun s =>
      orReturn (setLcdFunction s) fun s =>
      orReturn (enableDisplay s) fun s =>
      orReturn (Clear s) fun s =>
      orReturn (Home s) fun s =>
      (Outcome.returns none, s)) :=
  h.trans s _ _ (h.sleep lcdStartTime s) <|
    orReturn_inv h _ _ _ (set4BitMode_inv h hcmd _) fun s1 =>
    orReturn_inv h s1 _ _ (sendCommand_inv h _ (hcmd 0x28 (by decide)) s1) fun s2 =>
    orReturn_inv h s2 _ _
      (orReturn_inv h s2 _ _ (sendCommand_inv h _ (hcmd 0x0C (by decide)) s2)
        fun s3 => h.stay _ s3) fun s3 =>
    orReturn_inv h s3 _ _ (Clear_inv h hcmd s3) fun s4 =>
    orReturn_inv h s4 _ _ (Home_inv h hcmd s4) fun s5 => h.stay _ s5

theorem Start_inv {V : Nat → Prop} {Q : State → Outcome × State → Prop}
    (h : FrameInvariant V Q) (hcmd : ∀ b, b < 256 → V (highNibble b) ∧ V (lowNibble b))
    (hsetup : ∀ s, Q s (setupConnection s)) (s : State) : Q s (Start s) :=
  orReturn_inv h s _ _ (hsetup s) (startRest_inv h hcmd)

theorem Start_after_setup {V : Nat → Prop} {Q : State → Outcome × State → Prop}
    (h : FrameInvariant V Q) (hcmd : ∀ b, b < 256 → V (highNibble b) ∧ V (lowNibble b))
    (s : State) : Q (setupConnection s).2 (Start s) := by
  unfold Start
  by_cases hnil : (setupConnection s).1 = Outcome.returns none
  · rw [orReturn_of_nil _ _ hnil]
    exact startRest_inv h hcmd _
  · rw [orReturn_of_ne _ _ hnil]
    exact h.stay _ _

/-! ## The enable-pulse discipline -/

theorem runFrames_append (st : FrameState) (a b : List Event) :
    runFrames st (a ++ b) = (runFrames st a).bind fun st2 => runFrames st2 b := by
  induction a generalizing st with
  | nil => rfl
  | cons e es ih =>
    simp only [List.cons_append, runFrames]
    cases frameStep st e with
    | none => rfl
    | some st2 => exact ih st2

theorem framed_append (a b : List Event) (ha : framed a = true) (hb : framed b = true) :
    framed (a ++ b) = true := by
  simp only [framed, decide_eq_true_eq] at ha hb ⊢
  rw [runFrames_append, ha]
  exact hb

set_option maxRecDepth 1000000 in
theorem pulse_facts : ∀ v, v < 256 →
    framed [Event.writeByte (withEnable v), Event.sleep enablePulseTime,
      Event.writeByte (withoutEnable v), Event.sleep commandSettleTime] = true ∧
    highNibble v < 256 ∧ lowNibble v < 256 ∧
    (highNibble v ||| 1) < 256 ∧ (lowNibble v ||| 1) < 256 := by
  decide

/-- A call that returns nil has appended a framed piece of log. -/
theorem framing_invariant :
    FrameInvariant (fun v => v < 256) (fun s r =>
      r.1 = Outcome.returns none → ∃ new, r.2.events = s.events ++ new ∧ framed new = true) where
  stay := fun _ s _ => ⟨[], by simp, rfl⟩
  sleep := fun d s _ => ⟨[Event.sleep d], rfl, rfl⟩
  trans := by
    intro s s1 r h1 h2 hnil
    obtain ⟨new1, e1, f1⟩ := h1 rfl
    obtain ⟨new2, e2, f2⟩ := h2 hnil
    refine ⟨new1 ++ new2, ?_, framed_append _ _ f1 f2⟩
    rw [e2, e1, List.append_assoc]
  frame := by
    intro v s hv hnil
    cases hconn : s.driver.connection with
    | none => simp [send4BitCommand, hconn] at hnil
    | some c =>
      rw [send4BitCommand_cases v s c hconn] at hnil ⊢
      cases h0 : c.outcome (busWrites s.events).length with
      | some e => simp [h0] at hnil
      | none =>
        cases h1 : c.outcome ((busWrites s.events).length + 1) with
        | some e => simp [h0, h1] at hnil
        | none => exact ⟨_, rfl, (pulse_facts v hv).1⟩

/-- C11: on a connected driver whose bus writes all succeed, `send4BitCommand v`
returns nil and appends to the log exactly: write `v | 0x04`, wait 1 µs, write
`v & ~0x04`, wait 50 µs.  And whenever a public operation (`Start`, `Clear`, `Home`,
`SetCursor`, `Write`, `WriteString`, `Halt`) returns nil, in any state and on any
bus, the piece of log it appended is framed: every bus write in it is either an
enable-asserted byte, followed at once by the 1 µs delay and then by the same byte
with the enable bit cleared, or that enable-cleared byte, followed at once by the
50 µs delay. -/
theorem C11_enable_pulse_pairs :
    (∀ v s c, s.driver.connection = some c → (∀ n, c.outcome n = none) →
      send4BitCommand v s =
        (Outcome.returns none,
         { s with events := s.events ++ [Event.writeByte (v ||| 0x04),
             Event.sleep (1 * Microsecond), Event.writeByte (v &&& 0xFB),
             Event.sleep (50 * Microsecond)] })) ∧
    (∀ (op : PublicOperation) (s : State), (op.run s).1 = Outcome.returns none →
      ∃ new, (op.run s).2.events = s.events ++ new ∧ framed new = true) := by
  have hcmd : ∀ b, b < 256 → highNibble b < 256 ∧ lowNibble b < 256 :=
    fun b hb => ⟨(pulse_facts b hb).2.1, (pulse_facts b hb).2.2.1⟩
  have hdat : ∀ b, b < 256 → (highNibble b ||| 1) < 256 ∧ (lowNibble b ||| 1) < 256 :=
    fun b hb => ⟨(pulse_facts b hb).2.2.2.1, (pulse_facts b hb).2.2.2.2⟩
  constructor
  · intro v s c hc hok
    obtain ⟨d, ev⟩ := s
    exact send4BitCommand_ok v d ev c hc hok
  · intro op s
    cases op with
    | Start =>
      exact Start_inv framing_invariant hcmd
        (fun s _ => ⟨[Event.getConnection _ _], rfl, rfl⟩) s
    | Clear => exact Clear_inv framing_invariant hcmd s
    | Home => exact Home_inv framing_invariant hcmd s
    | SetCursor row col => exact SetCursor_inv framing_invariant hcmd row col s
    | Write c => exact Write_inv framing_invariant hdat c s
    | WriteString str => exact range_inv framing_invariant hdat str.data s
    | Halt => exact framing_invariant.stay _ s

theorem C11_enable_pulse_pairs_witness :
    (((ready okConnection).driver.connection = some okConnection ∧
        ∀ n, okConnection.outcome n = none) ∧
      busWrites (send4BitCommand 0x31 (ready okConnection)).2.events = [0x35, 0x31]) ∧
    ((PublicOperation.Start.run (fresh okConnection)).1 = Outcome.returns none ∧
      ∃ new, (PublicOperation.Start.run (fresh okConnection)).2.events =
        (fresh okConnection).events ++ new ∧ framed new = true) :=
  ⟨⟨⟨rfl, fun _ => rfl⟩,
    congrArg (fun r => busWrites r.2.events)
      (C11_enable_pulse_pairs.1 0x31 (ready okConnection) okConnection rfl (fun _ => rfl))⟩,
   ⟨by decide, C11_enable_pulse_pairs.2 PublicOperation.Start (fresh okConnection) (by decide)⟩⟩

/-! ## The nibble split -/

set_option maxRecDepth 1000000 in
theorem nibble_facts : ∀ b, b < 256 →
    highNibble b ||| (lowNibble b >>> 4) = b ∧
    highNibble b = b &&& 0xF0 ∧
    lowNibble b = ((b <<< 4) % 256) &&& 0xF0 ∧
    highNibble b &&& 0x0F = 0 ∧
    lowNibble b &&& 0x0F = 0 := by
  decide

/-- C12: for every byte `b`, reassembling the two nibbles gives `b` back,
`highNibble b | (lowNibble b >> 4) = b`, where `highNibble b = b & 0xF0` and
`lowNibble b = (b << 4) & 0xF0` in 8-bit arithmetic; both nibbles have their low
four bits zero; and two bytes with the same pair of nibbles are equal. -/
theorem C12_nibble_round_trip :
    (∀ b, b < 256 →
      highNibble b ||| (lowNibble b >>> 4) = b ∧
      highNibble b = b &&& 0xF0 ∧
      lowNibble b = ((b <<< 4) % 256) &&& 0xF0 ∧
      highNibble b &&& 0x0F = 0 ∧
      lowNibble b &&& 0x0F = 0) ∧
    (∀ b1 b2, b1 < 256 → b2 < 256 →
      highNibble b1 = highNibble b2 → lowNibble b1 = lowNibble b2 → b1 = b2) := by
  refine ⟨nibble_facts, ?_⟩
  intro b1 b2 h1 h2 hh hl
  have r1 := (nibble_facts b1 h1).1
  have r2 := (nibble_facts b2 h2).1
  rw [← r1, ← r2, hh, hl]

theorem C12_nibble_round_trip_witness :
    (0xA7 < 256 ∧ highNibble 0xA7 = 0xA0 ∧ lowNibble 0xA7 = 0x70) ∧
    highNibble 0xA7 ||| (lowNibble 0xA7 >>> 4) = 0xA7 :=
  ⟨by decide, (C12_nibble_round_trip.1 0xA7 (by decide)).1⟩

/-! ## The driver object -/

theorem send4BitCommand_driver (v : Nat) (s : State) :
    (send4BitCommand v s).2.driver = s.driver := by
  cases hconn : s.driver.connection with
  | none => simp [send4BitCommand, hconn]
  | some c =>
    rw [send4BitCommand_cases v s c hconn]
    cases c.outcome (busWrites s.events).length with
    | some e => rfl
    | none =>
      cases c.outcome ((busWrites s.events).length + 1) with
      | some e => rfl
      | none => rfl

/-- No method built from raw frames and sleeps touches the driver object. -/
theorem driver_invariant :
    FrameInvariant (fun _ => True) (fun s r => r.2.driver = s.driver) where
  stay := fun _ _ => rfl
  sleep := fun _ _ => rfl
  trans := fun _ _ _ h1 h2 => h2.trans h1
  frame := fun v s _ => send4BitCommand_driver v s

/-- No method built from raw frames and sleeps removes anything from the log. -/
theorem log_invariant :
    FrameInvariant (fun _ => True) (fun s r => s.events <+: r.2.events) where
  stay := fun _ s => List.prefix_refl s.events
  sleep := fun _ _ => List.prefix_append _ _
  trans := fun _ _ _ h1 h2 => h1.trans h2
  frame := fun v s _ => send4BitCommand_extends v s

theorem Start_driver (s : State) :
    (Start s).2.driver =
      { s.driver with connection :=
          (s.driver.connector.GetConnection (s.driver.config.GetAddressOrDefault 0)
            (s.driver.config.GetBusOrDefault s.driver.connector.GetDefaultBus)).1 } :=
  Start_after_setup driver_invariant (fun _ _ => ⟨trivial, trivial⟩) s

/-- Without a connection handle the first raw frame panics and nothing is logged. -/
theorem send4BitCommand_nil (v : Nat) (s : State) (hc : s.driver.connection = none) :
    send4BitCommand v s = (Outcome.panics, s) := by
  simp [send4BitCommand, hc]

theorem sendCommand_nil (b : Nat) (s : State) (hc : s.driver.connection = none) :
    sendCommand b s = (Outcome.panics, s) := by
  simp [sendCommand, send4BitCommand_nil _ s hc]

theorem sendData_nil (b : Nat) (s : State) (hc : s.driver.connection = none) :
    sendData b s = (Outcome.panics, s) := by
  simp [sendData, send4BitCommand_nil _ s hc]

/-- C14: for every state and every behaviour of the bus, after `Clear`, `Home`,
`SetCursor`, `Write`, `WriteString` or `Halt` (every public operation but `Start`),
whatever the outcome, the driver object is the one before the call: same name, same
connector, same connection handle, same configuration. -/
theorem C14_display_operations_keep_driver (op : PublicOperation)
    (hop : op ≠ PublicOperation.Start) (s : State) :
    (op.run s).2.driver = s.driver ∧
    (op.run s).2.driver.name = s.driver.name ∧
    (op.run s).2.driver.connection = s.driver.connection ∧
    (op.run s).2.driver.config = s.driver.config := by
  have hV : ∀ b, b < 256 → True ∧ True := fun _ _ => ⟨trivial, trivial⟩
  have key : (op.run s).2.driver = s.driver := by
    cases op with
    | Start => exact absurd rfl hop
    | Clear => exact Clear_inv driver_invariant hV s
    | Home => exact Home_inv driver_invariant hV s
    | SetCursor row col => exact SetCursor_inv driver_invariant hV row col s
    | Write c => exact Write_inv driver_invariant hV c s
    | WriteString str => exact range_inv driver_invariant hV str.data s
    | Halt => rfl
  exact ⟨key, by rw [key], by rw [key], by rw [key]⟩

theorem C14_display_operations_keep_driver_witness :
    PublicOperation.Clear ≠ PublicOperation.Start ∧
    (Clear (ready (failingConnection 2 (GoError.transport 7)))).1 =
      Outcome.returns (some (GoError.transport 7)) ∧
    (Clear (ready (failingConnection 2 (GoError.transport 7)))).2.driver.name =
      (ready (failingConnection 2 (GoError.transport 7))).driver.name :=
  ⟨by decide, by decide,
   (C14_display_operations_keep_driver PublicOperation.Clear (by decide)
      (ready (failingConnection 2 (GoError.transport 7)))).2.1⟩

/-- C15, as stated, fails: on a freshly constructed driver whose connector hands out
a connection and whose very first bus write fails, `Start` returns the transport
error and the driver nevertheless holds the connection handle. -/
theorem C15_handle_present_after_failed_Start :
    (fresh (failingConnection 0 (GoError.transport 7))).driver.connection.isSome = false ∧
    (Start (fresh (failingConnection 0 (GoError.transport 7)))).1 =
      Outcome.returns (some (GoError.transport 7)) ∧
    (Start (fresh (failingConnection 0 (GoError.transport 7)))).2.driver.connection.isSome =
      true := by
  decide

/-- C15, amended: a freshly constructed driver holds no connection handle; `Start`
stores in the driver whatever connection `GetConnection` handed back, before the
rest of the bring-up and whether or not `Start` then returns an error, changing
nothing else; so the handle is absent after a `Start` whose `GetConnection` handed
back no connection with its error, and whenever `Start` returns nil the handle is
present. -/
theorem C15_connection_handle (s : State) :
    (∀ name a options, (NewHD44780Driver name a options).connection = none) ∧
    (Start s).2.driver =
      { s.driver with connection :=
          (s.driver.connector.GetConnection (s.driver.config.GetAddressOrDefault 0)
            (s.driver.config.GetBusOrDefault s.driver.connector.GetDefaultBus)).1 } ∧
    (∀ e, s.driver.connector.GetConnection (s.driver.config.GetAddressOrDefault 0)
        (s.driver.config.GetBusOrDefault s.driver.connector.GetDefaultBus) = (none, some e) →
      (Start s).1 = Outcome.returns (some e) ∧ (Start s).2.driver.connection = none) ∧
    ((Start s).1 = Outcome.returns none → (Start s).2.driver.connection ≠ none) := by
  refine ⟨fun _ _ _ => rfl, Start_driver s, ?_, ?_⟩
  · intro e he
    refine ⟨?_, by rw [Start_driver, he]⟩
    simp [Start, setupConnection, he]
  · intro hnil hnone
    rw [Start_driver] at hnone
    simp only at hnone
    cases herr : (s.driver.connector.GetConnection (s.driver.config.GetAddressOrDefault 0)
        (s.driver.config.GetBusOrDefault s.driver.connector.GetDefaultBus)).2 with
    | some e =>
      simp [Start, setupConnection, herr] at hnil
    | none =>
      simp [Start, setupConnection, herr, hnone, set4BitMode, Retries4BitMode,
        set4BitMode.loop, send4BitCommand, Sleep] at hnil

theorem C15_connection_handle_witness :
    ((Start (fresh okConnection)).1 = Outcome.returns none ∧
      (Start (fresh okConnection)).2.driver.connection ≠ none) :=
  ⟨by decide, (C15_connection_handle (fresh okConnection)).2.2.2 (by decide)⟩

/-! ## Operations before a successful bring-up -/

/-- C16, as stated, fails: after a `Start` that obtained a connection and then
returned a transport error (its first bus write failed), `Clear` is not refused: it
returns nil and writes its four bytes to the bus. -/
theorem C16_Clear_runs_after_failed_Start :
    (Start (fresh (failingConnection 0 (GoError.transport 7)))).1 =
      Outcome.returns (some (GoError.transport 7)) ∧
    busWrites (Start (fresh (failingConnection 0 (GoError.transport 7)))).2.events = [0x34] ∧
    (Clear (Start (fresh (failingConnection 0 (GoError.transport 7)))).2).1 =
      Outcome.returns none ∧
    busWrites (Clear (Start (fresh (failingConnection 0 (GoError.transport 7)))).2).2.events =
      [0x34, 0x04, 0x00, 0x14, 0x10] := by
  decide

/-- C16, amended: the driver has no lifecycle value; its only guard is the nil
connection handle.  A display operation (`Clear`, `Home`, `SetCursor`, `Write`,
`WriteString`) invoked on a driver that holds no connection handle issues no bus
write and leaves the state as it was: it panics at its first bus write, except that
`SetCursor` with an invalid coordinate returns its validation error and
`WriteString` of the empty string returns nil. -/
theorem C16_no_handle_no_write (op : PublicOperation) (hop : op.isDisplay = true)
    (s : State) (hc : s.driver.connection = none) :
    (op.run s).2 = s ∧
    busWrites (op.run s).2.events = busWrites s.events ∧
    ((op.run s).1 = Outcome.panics ∨
     (∃ row col msg, op = PublicOperation.SetCursor row col ∧ (1 < row ∨ 15 < col) ∧
        (op.run s).1 = Outcome.returns (some (GoError.errorf msg))) ∨
     (∃ str, op = PublicOperation.WriteString str ∧ str.data = [] ∧
        (op.run s).1 = Outcome.returns none)) := by
  have key : (op.run s).2 = s ∧
      ((op.run s).1 = Outcome.panics ∨
       (∃ row col msg, op = PublicOperation.SetCursor row col ∧ (1 < row ∨ 15 < col) ∧
          (op.run s).1 = Outcome.returns (some (GoError.errorf msg))) ∨
       (∃ str, op = PublicOperation.WriteString str ∧ str.data = [] ∧
          (op.run s).1 = Outcome.returns none)) := by
    cases op with
    | Start => simp [PublicOperation.isDisplay] at hop
    | Halt => simp [PublicOperation.isDisplay] at hop
    | Clear => simp [PublicOperation.run, Clear, sendCommand_nil _ s hc]
    | Home => simp [PublicOperation.run, Home, sendCommand_nil _ s hc]
    | Write c => simp [PublicOperation.run, Write, sendData_nil _ s hc]
    | SetCursor row col =>
      by_cases hcol : 15 < col
      · have hv : validColumn col = false := by simp [validColumn]; omega
        refine ⟨by simp [PublicOperation.run, SetCursor, hv], Or.inr (Or.inl ?_)⟩
        exact ⟨row, col, "invalid col coordinate: " ++ toString col, rfl, Or.inr hcol,
          by simp [PublicOperation.run, SetCursor, hv]⟩
      · have hv : validColumn col = true := by simp [validColumn]; omega
        by_cases hrow : 1 < row
        · have hr : validRow row = false := by simp [validRow]; omega
          refine ⟨by simp [PublicOperation.run, SetCursor, hv, hr], Or.inr (Or.inl ?_)⟩
          exact ⟨row, col, "invalid row coordinate: " ++ toString row, rfl, Or.inl hrow,
            by simp [PublicOperation.run, SetCursor, hv, hr]⟩
        · obtain ⟨offset, -, hrun⟩ := SetCursor_valid row col (by omega) (by omega)
          simp [PublicOperation.run, hrun, sendCommand_nil _ s hc]
    | WriteString str =>
      cases hdata : str.data with
      | nil =>
        refine ⟨by simp [PublicOperation.run, WriteString, hdata, WriteString.range],
          Or.inr (Or.inr ⟨str, rfl, hdata, ?_⟩)⟩
        simp [PublicOperation.run, WriteString, hdata, WriteString.range]
      | cons ch cs =>
        simp [PublicOperation.run, WriteString, hdata, WriteString.range, Write,
          sendData_nil _ s hc]
  exact ⟨key.1, by rw [key.1], key.2⟩

theorem C16_no_handle_no_write_witness :
    (PublicOperation.Home.isDisplay = true ∧
      (fresh okConnection).driver.connection = none) ∧
    busWrites (PublicOperation.Home.run (fresh okConnection)).2.events =
      busWrites (fresh okConnection).events ∧
    (Home (fresh okConnection)).1 = Outcome.panics :=
  ⟨⟨rfl, rfl⟩,
   (C16_no_handle_no_write PublicOperation.Home rfl (fresh okConnection) rfl).2.1,
   by decide⟩

/-! ## Construction -/

/-- C17: `NewHD44780Driver` is a function of its arguments alone: for every
connector and every list of options it yields a driver that holds no connection
handle, keeps the connector and the name, and has the options applied in order to a
configuration with no override.  The connection is requested by `Start`, as the
first thing it appends to the log: at address `0x00` and the connector's default bus
when no option is given, at the given address when `WithAddress` is given, at the
given bus when `WithBus` is given. -/
theorem C17_construction_captures_configuration (name : String) (a : Connector)
    (options : List (Config → Config)) (ev : List Event) :
    (NewHD44780Driver name a options).connection = none ∧
    (NewHD44780Driver name a options).connector = a ∧
    (NewHD44780Driver name a options).name = name ∧
    (NewHD44780Driver name a options).config =
      options.foldl (fun c option => option c) NewConfig ∧
    (ev ++ [Event.getConnection
        ((NewHD44780Driver name a options).config.GetAddressOrDefault 0)
        ((NewHD44780Driver name a options).config.GetBusOrDefault a.GetDefaultBus)]) <+:
      (Start ⟨NewHD44780Driver name a options, ev⟩).2.events ∧
    (ev ++ [Event.getConnection 0x00 a.GetDefaultBus]) <+:
      (Start ⟨NewHD44780Driver name a [], ev⟩).2.events ∧
    (∀ address bus,
      (ev ++ [Event.getConnection address a.GetDefaultBus]) <+:
        (Start ⟨NewHD44780Driver name a [WithAddress address], ev⟩).2.events ∧
      (ev ++ [Event.getConnection 0x00 bus]) <+:
        (Start ⟨NewHD44780Driver name a [WithBus bus], ev⟩).2.events ∧
      (ev ++ [Event.getConnection address bus]) <+:
        (Start ⟨NewHD44780Driver name a [WithAddress address, WithBus bus], ev⟩).2.events) := by
  have first : ∀ d : HD44780Driver,
      (ev ++ [Event.getConnection (d.config.GetAddressOrDefault 0)
        (d.config.GetBusOrDefault d.connector.GetDefaultBus)]) <+: (Start ⟨d, ev⟩).2.events :=
    fun d => Start_after_setup log_invariant (fun _ _ => ⟨trivial, trivial⟩) ⟨d, ev⟩
  refine ⟨rfl, rfl, rfl, rfl, first _, first (NewHD44780Driver name a []), ?_⟩
  intro address bus
  exact ⟨first (NewHD44780Driver name a [WithAddress address]),
    first (NewHD44780Driver name a [WithBus bus]),
    first (NewHD44780Driver name a [WithAddress address, WithBus bus])⟩

/-! ## Control bits of the bus traffic -/

/-- Every byte a method attempts on the bus satisfies `P`, when the two bytes of each
raw frame do. -/
theorem bytes_invariant (P : Nat → Prop) :
    FrameInvariant (fun v => P (withEnable v) ∧ P (withoutEnable v)) (fun s r =>
      ∃ new, busWrites r.2.events = busWrites s.events ++ new ∧ ∀ x ∈ new, P x) where
  stay := fun _ s => ⟨[], by simp, by simp⟩
  sleep := fun d s => ⟨[], by simp [Sleep, busWrites_append, busWrites], by simp⟩
  trans := by
    intro s s1 r h1 h2
    obtain ⟨new1, e1, p1⟩ := h1
    obtain ⟨new2, e2, p2⟩ := h2
    refine ⟨new1 ++ new2, by rw [e2, e1, List.append_assoc], ?_⟩
    intro x hx
    rcases List.mem_append.mp hx with h | h
    · exact p1 x h
    · exact p2 x h
  frame := by
    intro v s hv
    cases hconn : s.driver.connection with
    | none => exact ⟨[], by simp [send4BitCommand, hconn], by simp⟩
    | some c =>
      rw [send4BitCommand_cases v s c hconn]
      cases c.outcome (busWrites s.events).length with
      | some e =>
        exact ⟨[withEnable v], by simp [busWrites_append, busWrites], by simpa using hv.1⟩
      | none =>
        cases c.outcome ((busWrites s.events).length + 1) with
        | some e =>
          exact ⟨[withEnable v, withoutEnable v], by simp [busWrites_append, busWrites],
            by simpa using hv⟩
        | none =>
          exact ⟨[withEnable v, withoutEnable v], by simp [busWrites_append, busWrites],
            by simpa using hv⟩

set_option maxRecDepth 1000000 in
theorem control_facts : ∀ b, b < 256 →
    ((controlBits 0 (withEnable (highNibble b)) ∧ controlBits 0 (withoutEnable (highNibble b))) ∧
      (controlBits 0 (withEnable (lowNibble b)) ∧ controlBits 0 (withoutEnable (lowNibble b)))) ∧
    ((controlBits 1 (withEnable (highNibble b ||| 1)) ∧
        controlBits 1 (withoutEnable (highNibble b ||| 1))) ∧
      (controlBits 1 (withEnable (lowNibble b ||| 1)) ∧
        controlBits 1 (withoutEnable (lowNibble b ||| 1)))) := by
  decide

/-- C18: for every public operation, every input, every state and every behaviour
of the bus, each byte the operation attempts to write to the bus has bit 1 (`0x02`)
and bit 3 (`0x08`) clear, so it equals itself ANDed with `0xF5`; bit 0, the RS bit,
is set in every byte attempted by `Write` and `WriteString` and clear in every byte
attempted by `Start`, `Clear`, `Home` and `SetCursor`. -/
theorem C18_control_bits (op : PublicOperation) (s : State) :
    ∃ new, busWrites (op.run s).2.events = busWrites s.events ++ new ∧
      ∀ x ∈ new, x &&& 0xF5 = x ∧ x &&& 0x02 = 0 ∧ x &&& 0x08 = 0 ∧
        x &&& 0x01 = (if op.isData = true then 1 else 0) := by
  have hcmd := fun b hb => (control_facts b hb).1
  have hdat := fun b hb => (control_facts b hb).2
  cases op with
  | Start =>
    exact Start_inv (bytes_invariant (controlBits 0)) hcmd
      (fun s => ⟨[], by simp [setupConnection, busWrites_append, busWrites], by simp⟩) s
  | Clear => exact Clear_inv (bytes_invariant (controlBits 0)) hcmd s
  | Home => exact Home_inv (bytes_invariant (controlBits 0)) hcmd s
  | SetCursor row col => exact SetCursor_inv (bytes_invariant (controlBits 0)) hcmd row col s
  | Write c => exact Write_inv (bytes_invariant (controlBits 1)) hdat c s
  | WriteString str => exact range_inv (bytes_invariant (controlBits 1)) hdat str.data s
  | Halt => exact ⟨[], by simp [PublicOperation.run, Halt], by simp⟩

/-! ## Cursor address encoding and validation order -/

set_option maxRecDepth 1000000 in
theorem encoding_facts : ∀ row, row < 2 → ∀ col, col < 16 →
    (∃ offset, rowOffsets[row]? = some offset ∧
      (setAddressCommand ||| col) + offset = 0x80 + 0x40 * row + col ∧
      (setAddressCommand ||| col) + offset < 256 ∧
      ((setAddressCommand ||| col) + offset) % 256 = 0x80 + 0x40 * row + col) ∧
    (row = 0 → 0x80 ≤ 0x80 + 0x40 * row + col ∧ 0x80 + 0x40 * row + col ≤ 0x8F) ∧
    (row = 1 → 0xC0 ≤ 0x80 + 0x40 * row + col ∧ 0x80 + 0x40 * row + col ≤ 0xCF) := by
  decide

set_option maxRecDepth 1000000 in
theorem trace_separates : ∀ b1, b1 < 256 → ∀ b2, b2 < 256 →
    [withEnable (highNibble b1), withoutEnable (highNibble b1),
      withEnable (lowNibble b1), withoutEnable (lowNibble b1)] =
    [withEnable (highNibble b2), withoutEnable (highNibble b2),
      withEnable (lowNibble b2), withoutEnable (lowNibble b2)] →
    highNibble b1 = highNibble b2 ∧ lowNibble b1 = lowNibble b2 := by
  intro b1 h1 b2 h2 h
  obtain ⟨a1, a2, -⟩ := byte_facts b1 h1
  obtain ⟨c1, c2, -⟩ := byte_facts b2 h2
  obtain ⟨n1, n2, n3, -⟩ := nibble_facts b1 h1
  obtain ⟨m1, m2, m3, -⟩ := nibble_facts b2 h2
  simp only [List.cons.injEq, and_true] at h
  obtain ⟨-, e2, -, e4⟩ := h
  rw [a1, c1] at e2
  rw [a2, c2] at e4
  exact ⟨by rw [n2, m2, e2], by rw [n3, m3, e4]⟩

/-- C19: for every row `r ∈ {0,1}` and column `c ∈ [0,15]`, the byte the code computes
for `SetCursor`, `(setAddressCommand | c) + rowOffsets()[r]`, is `0x80 + 0x40*r + c`
and stays below 256, so it does not wrap around; `SetCursor r c` is `sendCommand` of
that byte; it lies in `0x80..0x8F` for row 0 and in `0xC0..0xCF` for row 1; and two
valid coordinate pairs that give the same command byte, or the same bus trace, are
the same pair. -/
theorem C19_cursor_encoding (row col : Nat) (hrow : row ≤ 1) (hcol : col ≤ 15) :
    (∃ offset, rowOffsets[row]? = some offset ∧
      (setAddressCommand ||| col) + offset = 0x80 + 0x40 * row + col ∧
      (setAddressCommand ||| col) + offset < 256) ∧
    (∀ s, SetCursor row col s = sendCommand (0x80 + 0x40 * row + col) s) ∧
    (row = 0 → 0x80 ≤ 0x80 + 0x40 * row + col ∧ 0x80 + 0x40 * row + col ≤ 0x8F) ∧
    (row = 1 → 0xC0 ≤ 0x80 + 0x40 * row + col ∧ 0x80 + 0x40 * row + col ≤ 0xCF) ∧
    (∀ row2 col2, row2 ≤ 1 → col2 ≤ 15 →
      0x80 + 0x40 * row + col = 0x80 + 0x40 * row2 + col2 → row2 = row ∧ col2 = col) ∧
    (∀ row2 col2, row2 ≤ 1 → col2 ≤ 15 →
      busWrites (SetCursor row col (ready okConnection)).2.events =
        busWrites (SetCursor row2 col2 (ready okConnection)).2.events →
      row2 = row ∧ col2 = col) := by
  obtain ⟨⟨offset, ho, hsum, hlt, hmod⟩, hr0, hr1⟩ :=
    encoding_facts row (by omega) col (by omega)
  have hrun : ∀ r c, r ≤ 1 → c ≤ 15 →
      ∀ s, SetCursor r c s = sendCommand (0x80 + 0x40 * r + c) s := by
    intro r c hr hc s
    obtain ⟨⟨o1, h1, -, -, hm⟩, -⟩ := encoding_facts r (by omega) c (by omega)
    obtain ⟨o2, h2, e⟩ := SetCursor_valid r c hr hc
    have ho : o2 = o1 := by
      rw [h1] at h2
      exact (Option.some.inj h2).symm
    rw [e, ho, hm]
  have hinj : ∀ row2 col2, row2 ≤ 1 → col2 ≤ 15 →
      0x80 + 0x40 * row + col = 0x80 + 0x40 * row2 + col2 → row2 = row ∧ col2 = col := by
    intro row2 col2 h2 c2 h
    omega
  refine ⟨⟨offset, ho, hsum, hlt⟩, hrun row col hrow hcol, hr0, hr1, hinj, ?_⟩
  intro row2 col2 h2 c2 h
  rw [hrun row col hrow hcol, hrun row2 col2 h2 c2, successTrace_sendCommand,
    successTrace_sendCommand] at h
  have hb1 : 0x80 + 0x40 * row + col < 256 := by omega
  have hb2 : 0x80 + 0x40 * row2 + col2 < 256 := by omega
  obtain ⟨hh, hl⟩ := trace_separates _ hb1 _ hb2 h
  have r1 := (nibble_facts _ hb1).1
  have r2 := (nibble_facts _ hb2).1
  apply hinj row2 col2 h2 c2
  rw [← r1, ← r2, hh, hl]

theorem C19_cursor_encoding_witness :
    ((1 : Nat) ≤ 1 ∧ (15 : Nat) ≤ 15) ∧
    SetCursor 1 15 (ready okConnection) = sendCommand 0xCF (ready okConnection) :=
  ⟨by decide, (C19_cursor_encoding 1 15 (by decide) (by decide)).2.1 (ready okConnection)⟩

/-- A connected driver does not panic in a raw frame, and stays connected. -/
theorem send4BitCommand_returns (v : Nat) (s : State) (c : Connection)
    (hc : s.driver.connection = some c) :
    ∃ err s1, send4BitCommand v s = (Outcome.returns err, s1) ∧
      s1.driver.connection = some c := by
  rw [send4BitCommand_cases v s c hc]
  cases c.outcome (busWrites s.events).length with
  | some e => exact ⟨_, _, rfl, hc⟩
  | none =>
    cases c.outcome ((busWrites s.events).length + 1) with
    | some e => exact ⟨_, _, rfl, hc⟩
    | none => exact ⟨_, _, rfl, hc⟩

theorem sendCommand_returns (b : Nat) (s : State) (c : Connection)
    (hc : s.driver.connection = some c) :
    ∃ err s1, sendCommand b s = (Outcome.returns err, s1) := by
  unfold sendCommand
  obtain ⟨err1, s1, e1, hc1⟩ := send4BitCommand_returns (highNibble b) s c hc
  rw [e1]
  cases err1 with
  | some e => exact ⟨_, _, rfl⟩
  | none =>
    obtain ⟨err2, s2, e2, -⟩ := send4BitCommand_returns (lowNibble b) s1 c hc1
    simp only [orReturn_nil]
    rw [e2]
    cases err2 with
    | some e => exact ⟨_, _, rfl⟩
    | none => exact ⟨_, _, rfl⟩

/-- C20: `SetCursor` checks the column before the row.  For every row and every
column above 15 it returns the error "invalid col coordinate: " followed by the
column in decimal, also when the row is invalid too; for every column up to 15 and
every row above 1 it returns "invalid row coordinate: " followed by the row in
decimal; in both cases nothing is written.  The table of row offsets is indexed only
with a row that passed `validRow`, which is below the length of the table, so on a
driver that holds a connection `SetCursor` never panics. -/
theorem C20_SetCursor_validation_order (row col : Nat) (s : State) :
    (15 < col → SetCursor row col s =
      (Outcome.returns (some (GoError.errorf ("invalid col coordinate: " ++ toString col))),
       s)) ∧
    (col ≤ 15 → 1 < row → SetCursor row col s =
      (Outcome.returns (some (GoError.errorf ("invalid row coordinate: " ++ toString row))),
       s)) ∧
    (validRow row = true → row < rowOffsets.length) ∧
    (validRow row = true ↔ row ≤ 1) ∧
    (validColumn col = true ↔ col ≤ 15) ∧
    (∀ c, s.driver.connection = some c → (SetCursor row col s).1 ≠ Outcome.panics) := by
  have hvr : validRow row = true ↔ row ≤ 1 := by simp [validRow]
  have hvc : validColumn col = true ↔ col ≤ 15 := by simp [validColumn]
  refine ⟨?_, ?_, ?_, hvr, hvc, ?_⟩
  · intro hcol
    have hv : validColumn col = false := by simp [validColumn]; omega
    simp [SetCursor, hv]
  · intro hcol hrow
    have hv : validColumn col = true := hvc.mpr hcol
    have hr : validRow row = false := by simp [validRow]; omega
    simp [SetCursor, hv, hr]
  · intro h
    have := hvr.mp h
    show row < 2
    omega
  · intro c hc
    by_cases hcol : 15 < col
    · have hv : validColumn col = false := by simp [validColumn]; omega
      simp [SetCursor, hv]
    · have hv : validColumn col = true := hvc.mpr (by omega)
      by_cases hrow : 1 < row
      · have hr : validRow row = false := by simp [validRow]; omega
        simp [SetCursor, hv, hr]
      · obtain ⟨offset, -, hrun⟩ := SetCursor_valid row col (by omega) (by omega)
        obtain ⟨err, s1, e⟩ := sendCommand_returns
          (((setAddressCommand ||| col) + offset) % 256) s c hc
        rw [hrun, e]
        simp

theorem C20_SetCursor_validation_order_witness :
    ((15 : Nat) < 16 ∧ (1 : Nat) < 2) ∧
    SetCursor 2 16 (ready okConnection) =
      (Outcome.returns (some (GoError.errorf ("invalid col coordinate: " ++ toString 16))),
       ready okConnection) ∧
    "invalid col coordinate: " ++ toString 16 = "invalid col coordinate: 16" ∧
    (SetCursor 2 15 (ready okConnection)).1 =
      Outcome.returns (some (GoError.errorf "invalid row coordinate: 2")) :=
  ⟨by decide,
   (C20_SetCursor_validation_order 2 16 (ready okConnection)).1 (by decide),
   by decide,
   congrArg Prod.fst
     ((C20_SetCursor_validation_order 2 15 (ready okConnection)).2.1 (by decide) (by decide))⟩

/-! ## Failures during the bring-up -/

theorem traced_stay : Traced (fun s => (Outcome.returns none, s)) [] := by
  intro d ev c _
  refine ⟨fun _ => ⟨rfl, rfl, by simp⟩, ?_⟩
  intro k e hk
  simp at hk

theorem traced_sleep (t : Nat) : Traced (fun s => (Outcome.returns none, Sleep t s)) [] := by
  intro d ev c _
  refine ⟨fun _ => ⟨rfl, rfl, by simp [Sleep, busWrites_append, busWrites]⟩, ?_⟩
  intro k e hk
  simp at hk

theorem traced_frame (v : Nat) :
    Traced (send4BitCommand v) [withEnable v, withoutEnable v] := by
  intro d ev c hc
  constructor
  · intro h
    have h0 := h 0 (by simp)
    have h1 := h 1 (by simp)
    simp only [Nat.add_zero] at h0
    rw [frame_pass v d ev c hc h0 h1]
    exact ⟨rfl, rfl, by simp [busWrites_append, busWrites]⟩
  · intro k e hk hbefore hfail
    have hk2 : k < 2 := by simpa using hk
    exact frame_fail v d ev c hc (k + 1) e ⟨by omega, by omega⟩
      (fun i hi => hbefore i (by omega)) (by simpa using hfail)

theorem traced_after_sleep (f : State → Outcome × State) (tr : List Nat) (t : Nat)
    (hf : Traced f tr) : Traced (fun s => f (Sleep t s)) tr := by
  intro d ev c hc
  have h := hf d (ev ++ [Event.sleep t]) c hc
  have len : busWrites (ev ++ [Event.sleep t]) = busWrites ev := by
    simp [busWrites_append, busWrites]
  rw [len] at h
  exact h

theorem traced_seq (f g : State → Outcome × State) (t1 t2 : List Nat)
    (hf : Traced f t1) (hg : Traced g t2) :
    Traced (fun s => orReturn (f s) g) (t1 ++ t2) := by
  intro d ev c hc
  obtain ⟨fok, ffail⟩ := hf d ev c hc
  have pass : (∀ i, i < t1.length → c.outcome ((busWrites ev).length + i) = none) →
      ∃ ev1, orReturn (f ⟨d, ev⟩) g = g ⟨d, ev1⟩ ∧ busWrites ev1 = busWrites ev ++ t1 := by
    intro h
    obtain ⟨r1, r2, r3⟩ := fok h
    have hs : (f ⟨d, ev⟩).2 = ⟨(f ⟨d, ev⟩).2.driver, (f ⟨d, ev⟩).2.events⟩ := rfl
    rw [r2] at hs
    refine ⟨(f ⟨d, ev⟩).2.events, ?_, r3⟩
    rw [orReturn_of_nil _ _ r1]
    exact congrArg g hs
  constructor
  · intro h
    obtain ⟨ev1, e1, b1⟩ := pass (fun i hi => h i (by rw [List.length_append]; omega))
    obtain ⟨gok, -⟩ := hg d ev1 c hc
    have hlen : (busWrites ev1).length = (busWrites ev).length + t1.length := by
      rw [b1, List.length_append]
    obtain ⟨q1, q2, q3⟩ := gok (fun i hi => by
      rw [hlen, Nat.add_assoc]
      exact h (t1.length + i) (by rw [List.length_append]; omega))
    show (orReturn (f ⟨d, ev⟩) g).1 = _ ∧ (orReturn (f ⟨d, ev⟩) g).2.driver = _ ∧
      busWrites (orReturn (f ⟨d, ev⟩) g).2.events = _
    rw [e1]
    exact ⟨q1, q2, by rw [q3, b1, List.append_assoc]⟩
  · intro k e hk hbefore hfail
    show (orReturn (f ⟨d, ev⟩) g).1 = _ ∧ (orReturn (f ⟨d, ev⟩) g).2.driver = _ ∧
      busWrites (orReturn (f ⟨d, ev⟩) g).2.events = _
    by_cases hk1 : k < t1.length
    · obtain ⟨r1, r2, r3⟩ := ffail k e hk1 hbefore hfail
      rw [orReturn_of_err _ e _ r1]
      exact ⟨r1, r2, by rw [r3, List.take_append_of_le_length (by omega)]⟩
    · have hk2 : k - t1.length < t2.length := by
        rw [List.length_append] at hk
        omega
      obtain ⟨ev1, e1, b1⟩ := pass (fun i hi => hbefore i (by omega))
      obtain ⟨-, gfail⟩ := hg d ev1 c hc
      have hlen : (busWrites ev1).length = (busWrites ev).length + t1.length := by
        rw [b1, List.length_append]
      obtain ⟨q1, q2, q3⟩ := gfail (k - t1.length) e hk2
        (fun i hi => by
          rw [hlen, Nat.add_assoc]
          exact hbefore (t1.length + i) (by omega))
        (by rw [hlen, Nat.add_assoc, ← hfail]
            congr 2
            omega)
      have hle : t1.length ≤ k + 1 := by omega
      have harith : k + 1 - t1.length = k - t1.length + 1 := by omega
      rw [e1]
      refine ⟨q1, q2, ?_⟩
      rw [q3, b1, List.take_append_eq_append_take, List.take_of_length_le hle, harith,
        List.append_assoc]

theorem traced_sendCommand (b : Nat) :
    Traced (sendCommand b) [withEnable (highNibble b), withoutEnable (highNibble b),
      withEnable (lowNibble b), withoutEnable (lowNibble b)] :=
  traced_seq _ _ _ _ (traced_frame (highNibble b))
    (traced_seq _ _ _ _ (traced_frame (lowNibble b)) traced_stay)

theorem traced_loop (n : Nat) :
    Traced (set4BitMode.loop n) (List.replicate n [0x34, 0x30]).flatten := by
  induction n with
  | zero => exact traced_stay
  | succ n ih =>
    exact traced_seq _ _ _ _ (traced_frame ((0x03 <<< 4) % 256))
      (traced_after_sleep _ _ time4BitMode ih)

/-- The body of `Start` after the connection has been set up, with its 24 bytes. -/
theorem traced_startRest :
    Traced (fun s => orReturn (set4BitMode (Sleep lcdStartTime s)) fun s =>
      orReturn (setLcdFunction s) fun s =>
      orReturn (enableDisplay s) fun s =>
      orReturn (Clear s) fun s =>
      orReturn (Home s) fun s =>
      (Outcome.returns none, s))
      [0x34, 0x30, 0x34, 0x30, 0x34, 0x30, 0x24, 0x20,
        0x24, 0x20, 0x84, 0x80, 0x04, 0x00, 0xC4, 0xC0,
        0x04, 0x00, 0x14, 0x10, 0x04, 0x00, 0x24, 0x20] :=
  traced_seq _ _ _ _
    (traced_after_sleep _ _ lcdStartTime
      (traced_seq _ _ _ _ (traced_loop Retries4BitMode) (traced_frame ((0x02 <<< 4) % 256))))
    (traced_seq _ _ _ _ (traced_sendCommand 0x28)
      (traced_seq _ _ _ _ (traced_seq _ _ _ _ (traced_sendCommand 0x0C) traced_stay)
        (traced_seq _ _ _ _
          (traced_seq _ _ _ _ (traced_sendCommand commandClearDisplay) (traced_sleep clearTime))
          (traced_seq _ _ _ _
            (traced_seq _ _ _ _ (traced_sendCommand commandHome)
              (traced_sleep homeCommandDuration))
            traced_stay))))

/-- C13: a failure at any step of `Start` ends the bring-up with the error of that
step.  If `GetConnection` returns an error `e`, `Start` returns `e` and attempts no
bus write.  If it hands out a connection and, for some `k` from 1 to 24, the `k`-th
bus write of the bring-up is the first to fail, with error `e`, then `Start` returns
`e` and the bytes it attempted are exactly the first `k` of the 24 bytes of a
successful bring-up: no bus write is attempted after the failing one, so none of the
later steps runs. -/
theorem C13_Start_failure (s : State) :
    (∀ conn e,
      s.driver.connector.GetConnection (s.driver.config.GetAddressOrDefault 0)
        (s.driver.config.GetBusOrDefault s.driver.connector.GetDefaultBus) = (conn, some e) →
      (Start s).1 = Outcome.returns (some e) ∧
      busWrites (Start s).2.events = busWrites s.events) ∧
    (∀ c k e,
      s.driver.connector.GetConnection (s.driver.config.GetAddressOrDefault 0)
        (s.driver.config.GetBusOrDefault s.driver.connector.GetDefaultBus) = (some c, none) →
      1 ≤ k → k ≤ 24 →
      (∀ i, i + 1 < k → c.outcome ((busWrites s.events).length + i) = none) →
      c.outcome ((busWrites s.events).length + (k - 1)) = some e →
      (Start s).1 = Outcome.returns (some e) ∧
      busWrites (Start s).2.events =
        busWrites s.events ++
          [0x34, 0x30, 0x34, 0x30, 0x34, 0x30, 0x24, 0x20,
            0x24, 0x20, 0x84, 0x80, 0x04, 0x00, 0xC4, 0xC0,
            0x04, 0x00, 0x14, 0x10, 0x04, 0x00, 0x24, 0x20].take k ∧
      (busWrites (Start s).2.events).length = (busWrites s.events).length + k) := by
  obtain ⟨d, ev⟩ := s
  constructor
  · intro conn e hconn
    dsimp only at hconn
    simp [Start, setupConnection, hconn, busWrites_append, busWrites]
  · intro c k e hconn hk1 hk24 hbefore hfail
    dsimp only at hconn hbefore hfail
    have hlog : busWrites (ev ++ [Event.getConnection (d.config.GetAddressOrDefault 0)
        (d.config.GetBusOrDefault d.connector.GetDefaultBus)]) = busWrites ev := by
      simp [busWrites_append, busWrites]
    obtain ⟨-, hrest⟩ := traced_startRest { d with connection := some c }
      (ev ++ [Event.getConnection (d.config.GetAddressOrDefault 0)
        (d.config.GetBusOrDefault d.connector.GetDefaultBus)]) c rfl
    rw [hlog] at hrest
    have hk' : k - 1 + 1 = k := by omega
    obtain ⟨r1, -, r3⟩ := hrest (k - 1) e (by simp only [List.length_cons, List.length_nil]; omega)
      (fun i hi => hbefore i (by omega)) hfail
    rw [hk'] at r3
    have hrun : Start ⟨d, ev⟩ =
        (fun s => orReturn (set4BitMode (Sleep lcdStartTime s)) fun s =>
          orReturn (setLcdFunction s) fun s =>
          orReturn (enableDisplay s) fun s =>
          orReturn (Clear s) fun s =>
          orReturn (Home s) fun s =>
          (Outcome.returns none, s))
          ⟨{ d with connection := some c },
           ev ++ [Event.getConnection (d.config.GetAddressOrDefault 0)
             (d.config.GetBusOrDefault d.connector.GetDefaultBus)]⟩ := by
      simp only [Start, setupConnection, hconn, orReturn_nil]
    rw [hrun]
    refine ⟨r1, r3, ?_⟩
    rw [r3, List.length_append, List.length_take]
    simp only [List.length_cons, List.length_nil]
    omega

theorem C13_Start_failure_witness :
    ((fresh (failingConnection 9 (GoError.transport 7))).driver.connector.GetConnection
        ((fresh (failingConnection 9 (GoError.transport 7))).driver.config.GetAddressOrDefault 0)
        ((fresh (failingConnection 9 (GoError.transport 7))).driver.config.GetBusOrDefault
          (fresh (failingConnection 9
            (GoError.transport 7))).driver.connector.GetDefaultBus) =
        (some (failingConnection 9 (GoError.transport 7)), none) ∧
      (failingConnection 9 (GoError.transport 7)).outcome 9 = some (GoError.transport 7)) ∧
    (Start (fresh (failingConnection 9 (GoError.transport 7)))).1 =
      Outcome.returns (some (GoError.transport 7)) ∧
    busWrites (Start (fresh (failingConnection 9 (GoError.transport 7)))).2.events =
      [0x34, 0x30, 0x34, 0x30, 0x34, 0x30, 0x24, 0x20, 0x24, 0x20] :=
  ⟨⟨rfl, rfl⟩,
   ((C13_Start_failure (fresh (failingConnection 9 (GoError.transport 7)))).2
      (failingConnection 9 (GoError.transport 7)) 10 (GoError.transport 7) rfl
      (by decide) (by decide)
      (fun i hi => by
        have hne : ¬ (0 + i = 9) := by omega
        simp only [failingConnection, fresh, busWrites, List.length_nil, hne, if_false])
      rfl).1,
   ((C13_Start_failure (fresh (failingConnection 9 (GoError.transport 7)))).2
      (failingConnection 9 (GoError.transport 7)) 10 (GoError.transport 7) rfl
      (by decide) (by decide)
      (fun i hi => by
        have hne : ¬ (0 + i = 9) := by omega
        simp only [failingConnection, fresh, busWrites, List.length_nil, hne, if_false])
      rfl).2.1⟩

end lcddriver
